import Mathlib

/-!
# DOSBox MT-32 MIDI backend (`midi_mt32.h`): embedding and verified properties

The handler `MidiHandler_mt32` is embedded as a state-passing program over

* the handler's own fields (`chan`, `synth`, `open`, `noise`),
* a `World` holding the collaborators' observable state: the live engine
  instances, the registered mixer channels and the chronological trace of
  every collaborator call (file opens, engine calls, mixer calls, log lines),
* an `Env` giving the inputs the handler cannot control: the `midi`
  configuration section, which paths the filesystem can open, and whether the
  engine accepts the ROM images.

C strings are lists of characters (one `Char` per C `char`, the terminating
NUL left implicit) and pointers are `Option` handles (`none` is `NULL`).
Undefined behaviour makes an operation return `none`: a dereference of `NULL`,
and a `strcpy` or `strcat` that writes past the end of its destination buffer.
The C library's `atoi` is embedded as glibc defines it on a 64-bit `long`:
`(int) strtol(s, NULL, 10)`, where `strtol` saturates at `LONG_MAX` and
`LONG_MIN` and the conversion to `int` keeps the low 32 bits.
-/

namespace Munt

/-! ## Definitions -/

/-- A C string: the characters before the terminating NUL. -/
abbrev CString := List Char

/-- C `strlen`. -/
def strlen (s : CString) : Nat := s.length

/-- C `strcpy` into a buffer of `capacity` bytes: the buffer then holds the
source string; `none` when the string and its NUL do not fit. -/
def strcpy (capacity : Nat) (src : CString) : Option CString :=
  if strlen src + 1 ≤ capacity then some src else none

/-- C `strcat` onto a buffer of `capacity` bytes holding `dst`: the
destination string followed by the source string; `none` when the result and
its NUL do not fit. -/
def strcat (capacity : Nat) (dst src : CString) : Option CString :=
  if strlen dst + strlen src + 1 ≤ capacity then some (dst ++ src) else none

/-- C `strcmp`, reduced to what the handler uses of it: zero iff equal. -/
def strcmp (a b : CString) : Int := if a = b then 0 else 1

/-- C `isspace` in the "C" locale. -/
def isspace (c : Char) : Bool :=
  c.toNat == 32 || (9 ≤ c.toNat && c.toNat ≤ 13)

/-- C `isdigit`. -/
def isdigit (c : Char) : Bool := 48 ≤ c.toNat && c.toNat ≤ 57

/-- Largest value of a 64-bit `long`. -/
def LONG_MAX : Int := 2 ^ 63 - 1

/-- Smallest value of a 64-bit `long`. -/
def LONG_MIN : Int := -(2 ^ 63)

/-- The digit loop of `strtol` in base 10: the magnitude of the decimal digits
up to the first non-digit. -/
def strtolDigits : CString → Nat → Nat
  | [], acc => acc
  | c :: cs, acc =>
    if isdigit c then strtolDigits cs (acc * 10 + (c.toNat - 48)) else acc

/-- The sign and digits part of `strtol`, after leading white space: the value
read, replaced by `LONG_MAX` or `LONG_MIN` when it does not fit a `long`. -/
def strtolSigned : CString → Int
  | [] => 0
  | c :: cs =>
    if c.toNat == 45 then
      if (2 : Int) ^ 63 < (strtolDigits cs 0 : Int) then LONG_MIN
      else -(strtolDigits cs 0 : Int)
    else if c.toNat == 43 then
      if LONG_MAX < (strtolDigits cs 0 : Int) then LONG_MAX else (strtolDigits cs 0 : Int)
    else
      if LONG_MAX < (strtolDigits (c :: cs) 0 : Int) then LONG_MAX
      else (strtolDigits (c :: cs) 0 : Int)

/-- C `strtol(s, NULL, 10)`: skips white space, reads an optional sign and the
decimal digits that follow, saturating; `0` when there is no digit. -/
def strtol (s : CString) : Int := strtolSigned (s.dropWhile isspace)

/-- The C conversion `(int)x` of a `long`: the low 32 bits, read as a signed
number. -/
def toInt (x : Int) : Int := (x + 2 ^ 31) % 2 ^ 32 - 2 ^ 31

/-- C `atoi`, as `(int) strtol(s, NULL, 10)`. -/
def atoi (s : CString) : Int := toInt (strtol s)

/-- The C conversion `(Bit8u)x` of an `int`: the value modulo `2^8`. -/
def toBit8u (x : Int) : Nat := (x % 256).toNat

/-- The SDL function `SDL_Swap32`: reverses the four bytes of a 32-bit word. -/
def SDL_Swap32 (x : Nat) : Nat :=
  (x % 256) * 2 ^ 24 + (x / 2 ^ 8 % 256) * 2 ^ 16 + (x / 2 ^ 16 % 256) * 2 ^ 8
    + (x / 2 ^ 24 % 256)

/-- The SDL function `SDL_SwapLE32`: the identity on a little-endian host, a byte swap on a
big-endian host. -/
def SDL_SwapLE32 (bigEndianHost : Bool) (x : Nat) : Nat :=
  if bigEndianHost then SDL_Swap32 x else x

/-- The native load `*(Bit32u *)msg` of the first four bytes of a buffer of
`Bit8u`; `none` when the buffer is shorter than four bytes. -/
def loadBit32u (bigEndianHost : Bool) : List Nat → Option Nat
  | b0 :: b1 :: b2 :: b3 :: _ =>
    if bigEndianHost then
      some ((b0 % 256) * 2 ^ 24 + (b1 % 256) * 2 ^ 16 + (b2 % 256) * 2 ^ 8 + b3 % 256)
    else
      some (b0 % 256 + (b1 % 256) * 2 ^ 8 + (b2 % 256) * 2 ^ 16 + (b3 % 256) * 2 ^ 24)
  | _ => none

/-- The `midi` configuration section, as read through `Get_string` and
`Get_int`. `romdir` is `none` when `Get_string` returns `NULL`. -/
structure Section_prop where
  romdir : Option CString
  reverbMode : CString
  reverbTime : Int
  reverbLevel : Int
  dac : CString
  reverseStereo : CString
  verbose : CString

/-- What the handler cannot control: the configuration, the filesystem
(`FileStream::open` succeeds exactly on the paths `canOpen` accepts), the
engine's verdict on a pair of ROM files (`Synth::open`), and the engine's
sample rate constant. -/
structure Env where
  midi : Section_prop
  canOpen : CString → Bool
  engineAccepts : CString → CString → Bool
  SAMPLE_RATE : Nat

/-- One collaborator call, as observed from outside the handler. -/
inductive Event where
  | LOG_MSG (msg : String)
  | fileOpen (path : CString) (ok : Bool)
  | makeROMImage (path : CString)
  | freeROMImage (path : CString)
  | newSynth (h : Nat)
  | synthOpen (h : Nat) (controlROM pcmROM : CString) (ok : Bool)
  | writeSysex (h : Nat) (channel : Nat) (bytes : List Nat)
  | setReverbOverridden (h : Nat) (enabled : Bool)
  | setDACInputMode (h : Nat) (mode : Int)
  | setReversedStereoEnabled (h : Nat) (enabled : Bool)
  | MIXER_AddChannel (c : Nat) (rate : Nat) (name : String)
  | chanEnable (c : Nat) (enabled : Bool)
  | MIXER_DelChannel (c : Nat)
  | synthClose (h : Nat)
  | deleteSynth (h : Nat)
  | playMsg (h : Nat) (word : Nat)
  | playSysex (h : Nat) (bytes : List Nat)
  deriving DecidableEq, Repr

/-- The collaborators' state: the next fresh handle, the engine instances
that were created and not deleted, the mixer channels that were registered and
not removed, and the trace of calls, oldest first. -/
structure World where
  nextHandle : Nat
  synths : List Nat
  channels : List Nat
  trace : List Event
  deriving DecidableEq, Repr

/-- Appends one call to the trace. -/
def World.emit (w : World) (e : Event) : World :=
  { w with trace := w.trace ++ [e] }

/-- The expression `new MT32Emu::Synth(&reportHandler)`: a fresh live engine instance. -/
def World.newSynth (w : World) : Nat × World :=
  (w.nextHandle,
   { w with nextHandle := w.nextHandle + 1,
            synths := w.synths ++ [w.nextHandle],
            trace := w.trace ++ [Event.newSynth w.nextHandle] })

/-- The statement `delete synth`: the engine instance is no longer live. -/
def World.deleteSynth (w : World) (h : Nat) : World :=
  { w with synths := w.synths.erase h, trace := w.trace ++ [Event.deleteSynth h] }

/-- The call `MIXER_AddChannel(callback, rate, name)`: a fresh registered channel. -/
def World.MIXER_AddChannel (w : World) (rate : Nat) (name : String) : Nat × World :=
  (w.nextHandle,
   { w with nextHandle := w.nextHandle + 1,
            channels := w.channels ++ [w.nextHandle],
            trace := w.trace ++ [Event.MIXER_AddChannel w.nextHandle rate name] })

/-- The call `MIXER_DelChannel(chan)`: the channel is no longer registered. -/
def World.MIXER_DelChannel (w : World) (c : Nat) : World :=
  { w with channels := w.channels.erase c,
           trace := w.trace ++ [Event.MIXER_DelChannel c] }

/-- The call `FileStream::open(path)`: reports whether the path can be opened. -/
def World.fileOpen (w : World) (env : Env) (path : CString) : Bool × World :=
  (env.canOpen path, w.emit (Event.fileOpen path (env.canOpen path)))

/-- The fields of `MidiHandler_mt32` (`open_` is the field `open`). -/
structure MidiHandler_mt32 where
  chan : Option Nat
  synth : Option Nat
  open_ : Bool
  noise : Bool
  deriving DecidableEq, Repr

/-- The constructor `MidiHandler_mt32()`; `noise` is the zero of static
storage. -/
def MidiHandler_mt32.new : MidiHandler_mt32 :=
  { chan := none, synth := none, open_ := false, noise := false }

/-- Size of the local buffer `char pathName[4096]` of `Open`. -/
def pathNameSize : Nat := 4096

/-- The function `makeROMPathName` on a `pathName` buffer of `capacity` bytes:
the string that `strcpy` and `strcat` leave in `pathName`; `none` when one of
them writes past the end of the buffer. -/
def makeROMPathName (capacity : Nat) (romDir fileName : CString) (addPathSeparator : Bool) :
    Option CString :=
  (strcpy capacity romDir).bind fun pathName =>
  (if addPathSeparator then strcat capacity pathName "/".toList else some pathName).bind
    fun pathName =>
  strcat capacity pathName fileName

/-- Bytes that the calls of `makeROMPathName` need in `pathName`: the
directory, the separator when one is added, the file name and the terminating
NUL. -/
def pathNameBytes (romDir fileName : CString) (addPathSeparator : Bool) : Nat :=
  strlen romDir + (if addPathSeparator then 1 else 0) + strlen fileName + 1

/-- Preferred control ROM name. -/
def CM32L_CONTROL : CString := "CM32L_CONTROL.ROM".toList

/-- Fallback control ROM name. -/
def MT32_CONTROL : CString := "MT32_CONTROL.ROM".toList

/-- Preferred PCM ROM name. -/
def CM32L_PCM : CString := "CM32L_PCM.ROM".toList

/-- Fallback PCM ROM name. -/
def MT32_PCM : CString := "MT32_PCM.ROM".toList

/-- Outcome of the directory selection at the top of `Open`: the directory
used, whether a separator is added, and whether the too-long warning is
logged. -/
structure RomDirChoice where
  romDir : CString
  addPathSeparator : Bool
  warned : Bool
  deriving DecidableEq, Repr

/-- The directory selection of `Open` (from `Get_string("mt32.romdir")` to the
end of the length test). -/
def chooseRomDir (configured : Option CString) : RomDirChoice :=
  let romDir : CString := match configured with
    | none => "./".toList
    | some d => d
  let romDirLen := strlen romDir
  if romDirLen < 1 then
    { romDir := "./".toList, addPathSeparator := false, warned := false }
  else if 4080 < romDirLen then
    { romDir := "./".toList, addPathSeparator := false, warned := true }
  else
    let lastChar := romDir.getD (strlen romDir - 1) (Char.ofNat 0)
    { romDir := romDir,
      addPathSeparator := lastChar != '/' && lastChar != '\\',
      warned := false }

/-- The reverb message of `Open`: `reverbsysex` after its three assignments. -/
def reverbsysex (midi : Section_prop) : List Nat :=
  let reverbsysex : List Nat := [0x10, 0x00, 0x01, 0x00, 0x05, 0x03]
  let reverbsysex := reverbsysex.set 3 (toBit8u (atoi midi.reverbMode))
  let reverbsysex := reverbsysex.set 4 (toBit8u midi.reverbTime)
  let reverbsysex := reverbsysex.set 5 (toBit8u midi.reverbLevel)
  reverbsysex

/-- The method `MidiHandler_mt32::Open`: the result, the handler afterwards and
the world afterwards; `none` when a `makeROMPathName` call writes past the end
of `pathName`. Both ROM lookups build and open the fallback name only when the
preferred name could not be opened; the three `return false` points are the
three early results. -/
def MidiHandler_mt32.Open (env : Env) (self : MidiHandler_mt32) (w : World) :
    Option (Bool × MidiHandler_mt32 × World) :=
  let dir := chooseRomDir env.midi.romdir
  let w := if dir.warned then
      w.emit (Event.LOG_MSG "MT32: mt32.romdir is too long, using the current dir.")
    else w
  let romDir := dir.romDir
  let addPathSeparator := dir.addPathSeparator
  -- control ROM
  (makeROMPathName pathNameSize romDir CM32L_CONTROL addPathSeparator).bind fun pathName =>
  let r := w.fileOpen env pathName
  (if r.1 then some (pathName, true, r.2)
    else
      (makeROMPathName pathNameSize romDir MT32_CONTROL addPathSeparator).bind fun pathName =>
      let r := r.2.fileOpen env pathName
      some (pathName, r.1, r.2)).bind fun control =>
  let controlROMFile := control.1
  let w := control.2.2
  if !control.2.1 then
    some (false, self, w.emit (Event.LOG_MSG "MT32: Control ROM file not found"))
  else
  -- PCM ROM
  (makeROMPathName pathNameSize romDir CM32L_PCM addPathSeparator).bind fun pathName =>
  let r := w.fileOpen env pathName
  (if r.1 then some (pathName, true, r.2)
    else
      (makeROMPathName pathNameSize romDir MT32_PCM addPathSeparator).bind fun pathName =>
      let r := r.2.fileOpen env pathName
      some (pathName, r.1, r.2)).bind fun pcm =>
  let pcmROMFile := pcm.1
  let w := pcm.2.2
  if !pcm.2.1 then
    some (false, self, w.emit (Event.LOG_MSG "MT32: PCM ROM file not found"))
  else
  let w := w.emit (Event.makeROMImage controlROMFile)
  let w := w.emit (Event.makeROMImage pcmROMFile)
  let r := w.newSynth
  let h := r.1
  let w := r.2
  let self := { self with synth := some h }
  let accepted := env.engineAccepts controlROMFile pcmROMFile
  let w := w.emit (Event.synthOpen h controlROMFile pcmROMFile accepted)
  if !accepted then
    some (false, self, w.emit (Event.LOG_MSG "MT32: Error initialising emulation"))
  else
  let w := w.emit (Event.freeROMImage controlROMFile)
  let w := w.emit (Event.freeROMImage pcmROMFile)
  let w := if strcmp env.midi.reverbMode "auto".toList != 0 then
      (w.emit (Event.writeSysex h 16 ((reverbsysex env.midi).take 6))).emit
        (Event.setReverbOverridden h true)
    else w.emit (Event.LOG_MSG "MT32: Using default reverb")
  let w := if strcmp env.midi.dac "auto".toList != 0 then
      w.emit (Event.setDACInputMode h (atoi env.midi.dac))
    else w
  let w := w.emit (Event.setReversedStereoEnabled h
      (strcmp env.midi.reverseStereo "on".toList == 0))
  let self := { self with noise := strcmp env.midi.verbose "on".toList == 0 }
  let r := w.MIXER_AddChannel env.SAMPLE_RATE "MT32"
  let self := { self with chan := some r.1 }
  let w := r.2.emit (Event.chanEnable r.1 true)
  let self := { self with open_ := true }
  some (true, self, w)

/-- The method `MidiHandler_mt32::Close`; `none` when an open handler holds a
`NULL` channel or engine pointer, which the code dereferences. -/
def MidiHandler_mt32.Close (self : MidiHandler_mt32) (w : World) :
    Option (MidiHandler_mt32 × World) :=
  if !self.open_ then some (self, w)
  else
    match self.chan, self.synth with
    | some c, some h =>
      let w := w.emit (Event.chanEnable c false)
      let w := w.MIXER_DelChannel c
      let self := { self with chan := none }
      let w := w.emit (Event.synthClose h)
      let w := w.deleteSynth h
      let self := { self with synth := none }
      let self := { self with open_ := false }
      some (self, w)
    | _, _ => none

/-- The method `MidiHandler_mt32::PlayMsg` on a host of the given byte order;
`none` when `synth` is `NULL` or the buffer has fewer than four bytes. -/
def MidiHandler_mt32.PlayMsg (bigEndianHost : Bool) (self : MidiHandler_mt32)
    (msg : List Nat) (w : World) : Option World :=
  match self.synth, loadBit32u bigEndianHost msg with
  | some h, some word => some (w.emit (Event.playMsg h (SDL_SwapLE32 bigEndianHost word)))
  | _, _ => none

/-- The method `MidiHandler_mt32::PlaySysex`; `none` when `synth` is `NULL`. -/
def MidiHandler_mt32.PlaySysex (self : MidiHandler_mt32) (sysex : List Nat) (len : Nat)
    (w : World) : Option World :=
  match self.synth with
  | some h => some (w.emit (Event.playSysex h (sysex.take len)))
  | none => none

/-- The calls made since the world `w`. -/
def eventsSince (w w' : World) : List Event := w'.trace.drop w.trace.length

/-- A world with no live engine, no channel and an empty trace. -/
def World.empty : World := { nextHandle := 0, synths := [], channels := [], trace := [] }

/-- A directory and a file name joined as `makeROMPathName` joins them when
the result fits. -/
def joinPath (romDir fileName : CString) (addPathSeparator : Bool) : CString :=
  romDir ++ ((if addPathSeparator then "/".toList else []) ++ fileName)

/-- The path of a ROM file name under the directory chosen from the
configuration. -/
def romPath (env : Env) (fileName : CString) : CString :=
  joinPath (chooseRomDir env.midi.romdir).romDir fileName
    (chooseRomDir env.midi.romdir).addPathSeparator

/-- Whether the longest path `Open` can build under the chosen directory, the
one of `CM32L_CONTROL.ROM`, fits in `pathName`. -/
def romFits (env : Env) : Bool :=
  decide (pathNameBytes (chooseRomDir env.midi.romdir).romDir CM32L_CONTROL
    (chooseRomDir env.midi.romdir).addPathSeparator ≤ pathNameSize)

/-- The paths of the `FileStream::open` calls in a list of calls, in order. -/
def fileOpens : List Event → List CString
  | [] => []
  | Event.fileOpen p _ :: es => p :: fileOpens es
  | _ :: es => fileOpens es

/-- The paths of the files turned into ROM images (`makeROMImage`), in order. -/
def romImages : List Event → List CString
  | [] => []
  | Event.makeROMImage p :: es => p :: romImages es
  | _ :: es => romImages es

/-- The engine instances constructed (`new Synth`) in a list of calls. -/
def synthsCreated : List Event → List Nat
  | [] => []
  | Event.newSynth h :: es => h :: synthsCreated es
  | _ :: es => synthsCreated es

/-- The mixer channels registered (`MIXER_AddChannel`) in a list of calls. -/
def channelsAdded : List Event → List Nat
  | [] => []
  | Event.MIXER_AddChannel c _ _ :: es => c :: channelsAdded es
  | _ :: es => channelsAdded es

/-- The sysex messages written to the engine, with their channel. -/
def sysexWrites : List Event → List (Nat × List Nat)
  | [] => []
  | Event.writeSysex _ ch bytes :: es => (ch, bytes) :: sysexWrites es
  | _ :: es => sysexWrites es

/-- The `setReverbOverridden` calls in a list of calls. -/
def reverbOverrides : List Event → List (Nat × Bool)
  | [] => []
  | Event.setReverbOverridden h b :: es => (h, b) :: reverbOverrides es
  | _ :: es => reverbOverrides es

/-- Calls that belong to the ROM lookup: file opens and log lines. -/
def Event.isLookup : Event → Bool
  | Event.fileOpen _ _ => true
  | Event.LOG_MSG _ => true
  | _ => false

/-- The four ROM file names, in the order `Open` may try them. -/
def romFileNames : List CString := [CM32L_CONTROL, MT32_CONTROL, CM32L_PCM, MT32_PCM]

/-- The optional warning and the file opens of the ROM lookup of `Open`, when
the paths fit. -/
def lookupEvents (env : Env) : List Event :=
  (if (chooseRomDir env.midi.romdir).warned then
    [Event.LOG_MSG "MT32: mt32.romdir is too long, using the current dir."] else [])
  ++ [Event.fileOpen (romPath env CM32L_CONTROL) (env.canOpen (romPath env CM32L_CONTROL))]
  ++ (if env.canOpen (romPath env CM32L_CONTROL) then [] else
      [Event.fileOpen (romPath env MT32_CONTROL) (env.canOpen (romPath env MT32_CONTROL))])
  ++ (if env.canOpen (romPath env CM32L_CONTROL) || env.canOpen (romPath env MT32_CONTROL) then
      [Event.fileOpen (romPath env CM32L_PCM) (env.canOpen (romPath env CM32L_PCM))]
      ++ (if env.canOpen (romPath env CM32L_PCM) then [] else
        [Event.fileOpen (romPath env MT32_PCM) (env.canOpen (romPath env MT32_PCM))])
    else [])

/-- The control ROM file `Open` ends up holding: the preferred one when it can
be opened, else the fallback. -/
def controlROMFile (env : Env) : CString :=
  if env.canOpen (romPath env CM32L_CONTROL) then romPath env CM32L_CONTROL
  else romPath env MT32_CONTROL

/-- The PCM ROM file `Open` ends up holding. -/
def pcmROMFile (env : Env) : CString :=
  if env.canOpen (romPath env CM32L_PCM) then romPath env CM32L_PCM
  else romPath env MT32_PCM

/-- The calls of `Open` that configure the engine `h` after it accepted the
ROM images: reverb, DAC mode, stereo reversal. -/
def configEvents (env : Env) (h : Nat) : List Event :=
  (if env.midi.reverbMode = "auto".toList then
      [Event.LOG_MSG "MT32: Using default reverb"]
    else
      [Event.writeSysex h 16 (reverbsysex env.midi), Event.setReverbOverridden h true])
  ++ (if env.midi.dac = "auto".toList then []
      else [Event.setDACInputMode h (atoi env.midi.dac)])
  ++ [Event.setReversedStereoEnabled h (decide (env.midi.reverseStereo = "on".toList))]

/-- Whether the control ROM lookup of `Open` finds a file. -/
def controlFound (env : Env) : Bool :=
  env.canOpen (romPath env CM32L_CONTROL) || env.canOpen (romPath env MT32_CONTROL)

/-- Whether the PCM ROM lookup of `Open` finds a file. -/
def pcmFound (env : Env) : Bool :=
  env.canOpen (romPath env CM32L_PCM) || env.canOpen (romPath env MT32_PCM)

/-- The environment with `mt32.romdir` set to the given value. -/
def Env.withRomdir (env : Env) (d : Option CString) : Env :=
  { env with midi := { env.midi with romdir := d } }

/-- The result of `Open` when the paths fit in `pathName`, spelled out for each
of its four outcomes: control ROM not found, PCM ROM not found, ROM images
rejected by the engine, success. -/
def OpenFits (env : Env) (self : MidiHandler_mt32) (w : World) :
    Bool × MidiHandler_mt32 × World :=
  if controlFound env = false then
    (false, self,
      { w with trace := w.trace ++ (lookupEvents env ++
          [Event.LOG_MSG "MT32: Control ROM file not found"]) })
  else if pcmFound env = false then
    (false, self,
      { w with trace := w.trace ++ (lookupEvents env ++
          [Event.LOG_MSG "MT32: PCM ROM file not found"]) })
  else if env.engineAccepts (controlROMFile env) (pcmROMFile env) = false then
    (false, { self with synth := some w.nextHandle },
      { nextHandle := w.nextHandle + 1,
        synths := w.synths ++ [w.nextHandle],
        channels := w.channels,
        trace := w.trace ++ (lookupEvents env ++
          [Event.makeROMImage (controlROMFile env), Event.makeROMImage (pcmROMFile env),
           Event.newSynth w.nextHandle,
           Event.synthOpen w.nextHandle (controlROMFile env) (pcmROMFile env) false,
           Event.LOG_MSG "MT32: Error initialising emulation"]) })
  else
    (true,
      { chan := some (w.nextHandle + 1), synth := some w.nextHandle, open_ := true,
        noise := decide (env.midi.verbose = "on".toList) },
      { nextHandle := w.nextHandle + 2,
        synths := w.synths ++ [w.nextHandle],
        channels := w.channels ++ [w.nextHandle + 1],
        trace := w.trace ++ (lookupEvents env ++
          ([Event.makeROMImage (controlROMFile env), Event.makeROMImage (pcmROMFile env),
            Event.newSynth w.nextHandle,
            Event.synthOpen w.nextHandle (controlROMFile env) (pcmROMFile env) true,
            Event.freeROMImage (controlROMFile env), Event.freeROMImage (pcmROMFile env)]
           ++ (configEvents env w.nextHandle
           ++ [Event.MIXER_AddChannel (w.nextHandle + 1) env.SAMPLE_RATE "MT32",
               Event.chanEnable (w.nextHandle + 1) true]))) })

/-- A `midi` section with the given ROM directory and DOSBox's default values
for the other keys. -/
def midiDefaults (romdir : Option CString) : Section_prop :=
  { romdir := romdir, reverbMode := "auto".toList, reverbTime := 5, reverbLevel := 3,
    dac := "auto".toList, reverseStereo := "off".toList, verbose := "off".toList }

/-- A directory name of 4080 characters with no trailing separator. -/
def longDir : CString := List.replicate 4080 'a'

/-- A directory name of 4080 characters ending in a separator. -/
def longDirSlash : CString := List.replicate 4079 'a' ++ ['/']

/-- An environment with the 4080-character directory configured and no ROM
file present. -/
def envLongDir : Env :=
  { midi := midiDefaults (some longDir), canOpen := fun _ => false,
    engineAccepts := fun _ _ => true, SAMPLE_RATE := 32000 }

/-- An environment where every ROM file can be opened from `./` and the engine
accepts the images. -/
def envOK : Env :=
  { midi := midiDefaults (some "./".toList), canOpen := fun _ => true,
    engineAccepts := fun _ _ => true, SAMPLE_RATE := 32000 }

/-- An environment where every ROM file can be opened from `./` and the engine
rejects the images. -/
def envEngineRejects : Env :=
  { midi := midiDefaults (some "./".toList), canOpen := fun _ => true,
    engineAccepts := fun _ _ => false, SAMPLE_RATE := 32000 }

/-- An environment with a reverb override configured: mode `"2"`, time 5,
level 12; the ROM files can be opened from `./` and the engine accepts them. -/
def envReverb : Env :=
  { midi := { midiDefaults (some "./".toList) with
      reverbMode := "2".toList, reverbTime := 5, reverbLevel := 12 },
    canOpen := fun _ => true, engineAccepts := fun _ _ => true, SAMPLE_RATE := 32000 }

/-- An environment with `roms` configured where only the two fallback ROM
files exist. -/
def envFallback : Env :=
  { midi := midiDefaults (some "roms".toList),
    canOpen := fun p => p == "roms/MT32_CONTROL.ROM".toList || p == "roms/MT32_PCM.ROM".toList,
    engineAccepts := fun _ _ => true, SAMPLE_RATE := 32000 }

/-- An environment with `roms` configured where no ROM file exists. -/
def envNoRoms : Env :=
  { midi := midiDefaults (some "roms".toList), canOpen := fun _ => false,
    engineAccepts := fun _ _ => true, SAMPLE_RATE := 32000 }

/-- A directory name of 4081 characters. -/
def tooLongDir : CString := List.replicate 4081 'a'

/-- An environment with the 4081-character directory configured. -/
def envTooLong : Env :=
  { midi := midiDefaults (some tooLongDir), canOpen := fun _ => true,
    engineAccepts := fun _ _ => true, SAMPLE_RATE := 32000 }

/-- An open handler holding engine 0 and channel 1. -/
def openHandler : MidiHandler_mt32 :=
  { chan := some 1, synth := some 0, open_ := true, noise := false }

/-- The world in which engine 0 and channel 1 are live. -/
def openWorld : World := { nextHandle := 2, synths := [0], channels := [1], trace := [] }

/-- An environment with the 4080-character directory configured where every
ROM file can be opened. -/
def envLongDirAll : Env :=
  { midi := midiDefaults (some longDir), canOpen := fun _ => true,
    engineAccepts := fun _ _ => true, SAMPLE_RATE := 32000 }

/-- An environment with the 4080-character directory ending in a separator
configured where every ROM file can be opened. -/
def envLongDirSlash : Env :=
  { midi := midiDefaults (some longDirSlash), canOpen := fun _ => true,
    engineAccepts := fun _ _ => true, SAMPLE_RATE := 32000 }

/-- The world left by an `Open` whose ROM images the engine rejected: engine 0
is live and no handler points to it. -/
def leakWorld : World := { nextHandle := 1, synths := [0], channels := [], trace := [] }

/-! ## Helper lemmas and theorems -/

theorem fileOpens_append (xs ys : List Event) :
    fileOpens (xs ++ ys) = fileOpens xs ++ fileOpens ys := by
  induction xs with
  | nil => rfl
  | cons x xs ih => cases x <;> simp [fileOpens, ih]

theorem romImages_append (xs ys : List Event) :
    romImages (xs ++ ys) = romImages xs ++ romImages ys := by
  induction xs with
  | nil => rfl
  | cons x xs ih => cases x <;> simp [romImages, ih]

theorem synthsCreated_append (xs ys : List Event) :
    synthsCreated (xs ++ ys) = synthsCreated xs ++ synthsCreated ys := by
  induction xs with
  | nil => rfl
  | cons x xs ih => cases x <;> simp [synthsCreated, ih]

theorem channelsAdded_append (xs ys : List Event) :
    channelsAdded (xs ++ ys) = channelsAdded xs ++ channelsAdded ys := by
  induction xs with
  | nil => rfl
  | cons x xs ih => cases x <;> simp [channelsAdded, ih]

theorem sysexWrites_append (xs ys : List Event) :
    sysexWrites (xs ++ ys) = sysexWrites xs ++ sysexWrites ys := by
  induction xs with
  | nil => rfl
  | cons x xs ih => cases x <;> simp [sysexWrites, ih]

theorem reverbOverrides_append (xs ys : List Event) :
    reverbOverrides (xs ++ ys) = reverbOverrides xs ++ reverbOverrides ys := by
  induction xs with
  | nil => rfl
  | cons x xs ih => cases x <;> simp [reverbOverrides, ih]

theorem makeROMPathName_eq (capacity : Nat) (romDir fileName : CString)
    (addPathSeparator : Bool) :
    makeROMPathName capacity romDir fileName addPathSeparator =
      if pathNameBytes romDir fileName addPathSeparator ≤ capacity then
        some (joinPath romDir fileName addPathSeparator)
      else none := by
  cases addPathSeparator
  · simp only [makeROMPathName, strcpy, strcat, pathNameBytes, joinPath, strlen]
    by_cases h1 : romDir.length + 1 ≤ capacity
    · by_cases h2 : romDir.length + fileName.length + 1 ≤ capacity
      · simp [h1, h2]
      · simp [h1, h2]
    · have h2 : ¬ romDir.length + fileName.length + 1 ≤ capacity := by omega
      simp [h1, h2]
  · simp only [makeROMPathName, strcpy, strcat, pathNameBytes, joinPath, strlen]
    by_cases h1 : romDir.length + 1 ≤ capacity
    · by_cases h2 : romDir.length + 1 + 1 ≤ capacity
      · by_cases h3 : romDir.length + 1 + fileName.length + 1 ≤ capacity
        · simp [h1, h2, h3]
        · simp [h1, h2, h3]
      · have h3 : ¬ romDir.length + 1 + fileName.length + 1 ≤ capacity := by omega
        simp [h1, h2, h3]
    · have h3 : ¬ romDir.length + 1 + fileName.length + 1 ≤ capacity := by omega
      simp [h1, h3]

theorem strlen_romFileNames (f : CString) (hf : f ∈ romFileNames) : strlen f ≤ 17 := by
  simp only [romFileNames, List.mem_cons, List.mem_singleton, List.not_mem_nil,
    or_false] at hf
  rcases hf with rfl | rfl | rfl | rfl <;> decide

theorem makeROMPathName_of_fits (env : Env) (hfit : romFits env = true) (f : CString)
    (hf : f ∈ romFileNames) :
    makeROMPathName pathNameSize (chooseRomDir env.midi.romdir).romDir f
      (chooseRomDir env.midi.romdir).addPathSeparator = some (romPath env f) := by
  have hlen := strlen_romFileNames f hf
  have h17 : strlen CM32L_CONTROL = 17 := by decide
  simp only [romFits, decide_eq_true_eq, pathNameBytes, h17] at hfit
  rw [makeROMPathName_eq, if_pos]
  · rfl
  · simp only [pathNameBytes]
    omega

theorem makeROMPathName_of_not_fits (env : Env) (hfit : romFits env = false) :
    makeROMPathName pathNameSize (chooseRomDir env.midi.romdir).romDir CM32L_CONTROL
      (chooseRomDir env.midi.romdir).addPathSeparator = none := by
  simp only [romFits, decide_eq_false_iff_not] at hfit
  rw [makeROMPathName_eq, if_neg hfit]

theorem reverbsysex_take (midi : Section_prop) : (reverbsysex midi).take 6 = reverbsysex midi := by
  simp [reverbsysex]

theorem Open_eq_none (env : Env) (self : MidiHandler_mt32) (w : World)
    (hfit : romFits env = false) : self.Open env w = none := by
  simp [MidiHandler_mt32.Open, makeROMPathName_of_not_fits env hfit]

set_option maxHeartbeats 4000000 in
theorem Open_eq_of_fits (env : Env) (self : MidiHandler_mt32) (w : World)
    (hfit : romFits env = true) :
    self.Open env w = some (OpenFits env self w) := by
  have e1 := makeROMPathName_of_fits env hfit CM32L_CONTROL (by simp [romFileNames])
  have e2 := makeROMPathName_of_fits env hfit MT32_CONTROL (by simp [romFileNames])
  have e3 := makeROMPathName_of_fits env hfit CM32L_PCM (by simp [romFileNames])
  have e4 := makeROMPathName_of_fits env hfit MT32_PCM (by simp [romFileNames])
  simp only [MidiHandler_mt32.Open, OpenFits, e1, e2, e3, e4, Option.some_bind,
    controlFound, pcmFound, controlROMFile, pcmROMFile, lookupEvents, configEvents]
  generalize romPath env CM32L_CONTROL = c1
  generalize romPath env MT32_CONTROL = c2
  generalize romPath env CM32L_PCM = p1
  generalize romPath env MT32_PCM = p2
  cases h1 : env.canOpen c1 <;> cases h2 : env.canOpen c2 <;>
  cases h3 : env.canOpen p1 <;> cases h4 : env.canOpen p2 <;>
  cases h5 : (chooseRomDir env.midi.romdir).warned <;>
  simp [World.fileOpen, World.emit, World.newSynth, World.MIXER_AddChannel,
    h1, h2, h3, h4, h5, strcmp, reverbsysex_take] <;>
  (split_ifs <;> simp_all)

theorem Open_eq (env : Env) (self : MidiHandler_mt32) (w : World) :
    self.Open env w = if romFits env = true then some (OpenFits env self w) else none := by
  by_cases hfit : romFits env = true
  · rw [if_pos hfit, Open_eq_of_fits env self w hfit]
  · rw [if_neg hfit, Open_eq_none env self w (by simpa using hfit)]

theorem Open_some (env : Env) (self : MidiHandler_mt32) (w : World)
    (r : Bool × MidiHandler_mt32 × World) (h : self.Open env w = some r) :
    romFits env = true ∧ r = OpenFits env self w := by
  rw [Open_eq] at h
  split_ifs at h with hfit
  exact ⟨hfit, (Option.some.inj h).symm⟩

theorem OpenFits_events (env : Env) (self : MidiHandler_mt32) (w : World) :
    eventsSince w (OpenFits env self w).2.2 =
      if controlFound env = false then
        lookupEvents env ++ [Event.LOG_MSG "MT32: Control ROM file not found"]
      else if pcmFound env = false then
        lookupEvents env ++ [Event.LOG_MSG "MT32: PCM ROM file not found"]
      else if env.engineAccepts (controlROMFile env) (pcmROMFile env) = false then
        lookupEvents env ++
          [Event.makeROMImage (controlROMFile env), Event.makeROMImage (pcmROMFile env),
           Event.newSynth w.nextHandle,
           Event.synthOpen w.nextHandle (controlROMFile env) (pcmROMFile env) false,
           Event.LOG_MSG "MT32: Error initialising emulation"]
      else
        lookupEvents env ++
          ([Event.makeROMImage (controlROMFile env), Event.makeROMImage (pcmROMFile env),
            Event.newSynth w.nextHandle,
            Event.synthOpen w.nextHandle (controlROMFile env) (pcmROMFile env) true,
            Event.freeROMImage (controlROMFile env), Event.freeROMImage (pcmROMFile env)]
           ++ (configEvents env w.nextHandle
           ++ [Event.MIXER_AddChannel (w.nextHandle + 1) env.SAMPLE_RATE "MT32",
               Event.chanEnable (w.nextHandle + 1) true])) := by
  unfold eventsSince OpenFits
  split_ifs <;> simp

theorem OpenFits_true (env : Env) (self : MidiHandler_mt32) (w : World)
    (h : (OpenFits env self w).1 = true) :
    (OpenFits env self w).2.1 =
        { chan := some (w.nextHandle + 1), synth := some w.nextHandle, open_ := true,
          noise := decide (env.midi.verbose = "on".toList) }
    ∧ (OpenFits env self w).2.2.synths = w.synths ++ [w.nextHandle]
    ∧ (OpenFits env self w).2.2.channels = w.channels ++ [w.nextHandle + 1]
    ∧ (OpenFits env self w).2.2.nextHandle = w.nextHandle + 2
    ∧ eventsSince w (OpenFits env self w).2.2 =
        lookupEvents env ++
          ([Event.makeROMImage (controlROMFile env), Event.makeROMImage (pcmROMFile env),
            Event.newSynth w.nextHandle,
            Event.synthOpen w.nextHandle (controlROMFile env) (pcmROMFile env) true,
            Event.freeROMImage (controlROMFile env), Event.freeROMImage (pcmROMFile env)]
           ++ (configEvents env w.nextHandle
           ++ [Event.MIXER_AddChannel (w.nextHandle + 1) env.SAMPLE_RATE "MT32",
               Event.chanEnable (w.nextHandle + 1) true])) := by
  rw [OpenFits_events]
  unfold OpenFits at h ⊢
  split_ifs at h ⊢
  simp

theorem Open_true (env : Env) (self s1 : MidiHandler_mt32) (w w1 : World)
    (h : self.Open env w = some (true, s1, w1)) :
    s1 = { chan := some (w.nextHandle + 1), synth := some w.nextHandle, open_ := true,
           noise := decide (env.midi.verbose = "on".toList) }
    ∧ w1.synths = w.synths ++ [w.nextHandle]
    ∧ w1.channels = w.channels ++ [w.nextHandle + 1]
    ∧ w1.nextHandle = w.nextHandle + 2
    ∧ eventsSince w w1 =
        lookupEvents env ++
          ([Event.makeROMImage (controlROMFile env), Event.makeROMImage (pcmROMFile env),
            Event.newSynth w.nextHandle,
            Event.synthOpen w.nextHandle (controlROMFile env) (pcmROMFile env) true,
            Event.freeROMImage (controlROMFile env), Event.freeROMImage (pcmROMFile env)]
           ++ (configEvents env w.nextHandle
           ++ [Event.MIXER_AddChannel (w.nextHandle + 1) env.SAMPLE_RATE "MT32",
               Event.chanEnable (w.nextHandle + 1) true])) := by
  obtain ⟨-, hr⟩ := Open_some env self w _ h
  have h1 : (OpenFits env self w).1 = true := by rw [← hr]
  have := OpenFits_true env self w h1
  rw [← hr] at this
  exact this

theorem Open_independent_of_handler (env : Env) (self other : MidiHandler_mt32) (w : World) :
    (self.Open env w).map (fun r => (r.1, r.2.2))
      = (other.Open env w).map (fun r => (r.1, r.2.2)) := by
  rw [Open_eq env self w, Open_eq env other w]
  split_ifs
  · simp only [Option.map_some', Option.some.injEq, OpenFits]
    split_ifs <;> rfl
  · rfl

theorem lookupEvents_isLookup (env : Env) (e : Event) (he : e ∈ lookupEvents env) :
    e.isLookup = true := by
  unfold lookupEvents at he
  cases h1 : env.canOpen (romPath env CM32L_CONTROL) <;>
  cases h2 : env.canOpen (romPath env MT32_CONTROL) <;>
  cases h3 : env.canOpen (romPath env CM32L_PCM) <;>
  cases h5 : (chooseRomDir env.midi.romdir).warned <;>
  simp [h1, h2, h3, h5] at he <;>
  (rcases he with rfl | rfl | rfl | rfl | rfl | rfl | rfl) <;> rfl

theorem configEvents_no_release (env : Env) (h : Nat) (e : Event) (he : e ∈ configEvents env h) :
    (∀ x, e ≠ Event.deleteSynth x) ∧ (∀ x, e ≠ Event.MIXER_DelChannel x)
    ∧ (∀ x, e ≠ Event.newSynth x) ∧ (∀ x r n, e ≠ Event.MIXER_AddChannel x r n) := by
  unfold configEvents at he
  simp only [List.mem_append, List.mem_singleton] at he
  rcases he with (he | he) | he
  · split_ifs at he <;> simp_all
    rcases he with he | he <;> simp [he]
  · split_ifs at he <;> simp_all
  · simp [he]

theorem OpenFits_no_release (env : Env) (self : MidiHandler_mt32) (w : World) (e : Event)
    (he : e ∈ eventsSince w (OpenFits env self w).2.2) :
    (∀ x, e ≠ Event.deleteSynth x) ∧ (∀ x, e ≠ Event.MIXER_DelChannel x) := by
  have hl : ∀ e ∈ lookupEvents env,
      (∀ x, e ≠ Event.deleteSynth x) ∧ (∀ x, e ≠ Event.MIXER_DelChannel x) := by
    intro e he
    have := lookupEvents_isLookup env e he
    constructor <;> intro x hx <;> subst hx <;> simp [Event.isLookup] at this
  rw [OpenFits_events] at he
  split_ifs at he
  all_goals
    simp only [List.mem_append, List.mem_cons, List.mem_singleton, List.not_mem_nil,
      or_false] at he
  · rcases he with he | rfl
    · exact hl e he
    · simp
  · rcases he with he | rfl
    · exact hl e he
    · simp
  · rcases he with he | rfl | rfl | rfl | rfl | rfl
    · exact hl e he
    all_goals simp
  · rcases he with he | (rfl | rfl | rfl | rfl | rfl | rfl) | he | rfl | rfl
    · exact hl e he
    any_goals simp
    exact ⟨(configEvents_no_release env _ e he).1, (configEvents_no_release env _ e he).2.1⟩

theorem erase_append_fresh (l : List Nat) (n : Nat) (h : ∀ x ∈ l, x < n) (k : Nat) :
    (l ++ [n + k]).erase (n + k) = l := by
  have hn : n + k ∉ l := by
    intro hmem
    have := h _ hmem
    omega
  rw [List.erase_append_right _ hn]
  simp

theorem Close_of_open (self : MidiHandler_mt32) (w : World) (c h : Nat)
    (ho : self.open_ = true) (hc : self.chan = some c) (hs : self.synth = some h) :
    self.Close w = some
      ({ chan := none, synth := none, open_ := false, noise := self.noise },
       { nextHandle := w.nextHandle,
         synths := w.synths.erase h,
         channels := w.channels.erase c,
         trace := w.trace ++ [Event.chanEnable c false, Event.MIXER_DelChannel c,
           Event.synthClose h, Event.deleteSynth h] }) := by
  simp [MidiHandler_mt32.Close, ho, hc, hs, World.emit, World.MIXER_DelChannel,
    World.deleteSynth]

theorem getD_last (d : CString) (x : Char) (hd : d ≠ []) :
    d.getD (d.length - 1) x = d.getLast hd := by
  rw [List.getD_eq_getElem?_getD, ← List.getLast?_eq_getElem?, List.getLast?_eq_getLast d hd]
  rfl

theorem chooseRomDir_in_range (d : CString) (h1 : 1 ≤ strlen d) (h2 : strlen d ≤ 4080) :
    chooseRomDir (some d) =
      { romDir := d,
        addPathSeparator :=
          d.getD (d.length - 1) (Char.ofNat 0) != '/' && d.getD (d.length - 1) (Char.ofNat 0) != '\\',
        warned := false } := by
  simp only [strlen] at h1 h2
  have h3 : ¬ d.length < 1 := by omega
  have h4 : ¬ 4080 < d.length := by omega
  simp [chooseRomDir, strlen, h3, h4]

theorem chooseRomDir_default (configured : Option CString)
    (h : configured = none ∨ configured = some []
      ∨ ∃ d, configured = some d ∧ 4080 < strlen d) :
    chooseRomDir configured =
      { romDir := "./".toList, addPathSeparator := false,
        warned := decide (4080 < strlen (configured.getD [])) } := by
  rcases h with h | h | ⟨d, h, hlen⟩
  · subst h; rfl
  · subst h; rfl
  · subst h
    simp only [strlen] at hlen
    have h3 : ¬ d.length < 1 := by omega
    simp [chooseRomDir, strlen, h3, hlen]

theorem chooseRomDir_dot_slash :
    chooseRomDir (some "./".toList) =
      { romDir := "./".toList, addPathSeparator := false, warned := false } := by
  decide

theorem strlen_replicate (n : Nat) (c : Char) : strlen (List.replicate n c) = n := by
  simp [strlen]

theorem strlen_append (a b : CString) : strlen (a ++ b) = strlen a + strlen b := by
  simp [strlen]

theorem getD_replicate_last (n : Nat) (c x : Char) (h : 0 < n) :
    (List.replicate n c).getD ((List.replicate n c).length - 1) x = c := by
  have h1 : n - 1 < n := by omega
  simp [List.getD_eq_getElem?_getD, List.getElem?_replicate, h1]

theorem getD_snoc_last (l : CString) (c x : Char) :
    (l ++ [c]).getD ((l ++ [c]).length - 1) x = c := by
  simp [List.getD_eq_getElem?_getD]

theorem strlen_longDir : strlen longDir = 4080 := strlen_replicate 4080 _

theorem strlen_longDirSlash : strlen longDirSlash = 4080 := by
  unfold longDirSlash
  rw [strlen_append, strlen_replicate]
  rfl

theorem chooseRomDir_longDir :
    chooseRomDir (some longDir) =
      { romDir := longDir, addPathSeparator := true, warned := false } := by
  have hlen : strlen longDir = 4080 := strlen_longDir
  rw [chooseRomDir_in_range longDir (by omega) (by omega)]
  have hget : longDir.getD (longDir.length - 1) (Char.ofNat 0) = 'a' := by
    unfold longDir
    exact getD_replicate_last 4080 _ _ (by omega)
  rw [hget]
  simp

theorem chooseRomDir_longDirSlash :
    chooseRomDir (some longDirSlash) =
      { romDir := longDirSlash, addPathSeparator := false, warned := false } := by
  have hlen : strlen longDirSlash = 4080 := strlen_longDirSlash
  rw [chooseRomDir_in_range longDirSlash (by omega) (by omega)]
  have hget : longDirSlash.getD (longDirSlash.length - 1) (Char.ofNat 0) = '/' := by
    unfold longDirSlash
    rw [getD_snoc_last]
  rw [hget]
  simp

theorem strlen_tooLongDir : strlen tooLongDir = 4081 := strlen_replicate 4081 _

theorem pathNameBytes_longDir : pathNameBytes longDir CM32L_CONTROL true = 4099 := by
  have hname : strlen CM32L_CONTROL = 17 := by decide
  simp only [pathNameBytes, strlen_longDir, hname, if_true]

theorem pathNameBytes_longDirSlash : pathNameBytes longDirSlash CM32L_CONTROL false = 4098 := by
  have hname : strlen CM32L_CONTROL = 17 := by decide
  simp only [pathNameBytes, strlen_longDirSlash, hname]
  rfl

theorem makeROMPathName_longDir :
    makeROMPathName pathNameSize longDir CM32L_CONTROL true = none := by
  rw [makeROMPathName_eq, pathNameBytes_longDir, if_neg (by decide)]

theorem makeROMPathName_longDirSlash :
    makeROMPathName pathNameSize longDirSlash CM32L_CONTROL false = none := by
  rw [makeROMPathName_eq, pathNameBytes_longDirSlash, if_neg (by decide)]

theorem romFits_longDir (env : Env) (h : env.midi.romdir = some longDir) :
    romFits env = false := by
  simp only [romFits, h, chooseRomDir_longDir, pathNameBytes_longDir]
  decide

theorem romFits_longDirSlash (env : Env) (h : env.midi.romdir = some longDirSlash) :
    romFits env = false := by
  simp only [romFits, h, chooseRomDir_longDirSlash, pathNameBytes_longDirSlash]
  decide

theorem romFits_default (env : Env)
    (h : env.midi.romdir = none ∨ env.midi.romdir = some []
      ∨ ∃ d, env.midi.romdir = some d ∧ 4080 < strlen d) :
    romFits env = true := by
  simp only [romFits, chooseRomDir_default env.midi.romdir h]
  decide

theorem romFits_of_short (env : Env) (d : CString) (hd : env.midi.romdir = some d)
    (h1 : 1 ≤ strlen d) (h2 : strlen d ≤ 4077) : romFits env = true := by
  have hname : strlen CM32L_CONTROL = 17 := by decide
  simp only [romFits, hd, chooseRomDir_in_range d h1 (by omega), pathNameBytes, hname,
    pathNameSize, decide_eq_true_eq]
  split_ifs <;> omega

theorem fileOpens_configEvents (env : Env) (h : Nat) : fileOpens (configEvents env h) = [] := by
  unfold configEvents
  split_ifs <;> simp [fileOpens]

theorem fileOpens_lookupEvents (env : Env) :
    fileOpens (lookupEvents env) =
      romPath env CM32L_CONTROL ::
        ((if env.canOpen (romPath env CM32L_CONTROL) then [] else [romPath env MT32_CONTROL])
          ++ (if env.canOpen (romPath env CM32L_CONTROL) || env.canOpen (romPath env MT32_CONTROL)
              then romPath env CM32L_PCM ::
                (if env.canOpen (romPath env CM32L_PCM) then [] else [romPath env MT32_PCM])
              else [])) := by
  unfold lookupEvents
  cases h1 : env.canOpen (romPath env CM32L_CONTROL) <;>
  cases h2 : env.canOpen (romPath env MT32_CONTROL) <;>
  cases h3 : env.canOpen (romPath env CM32L_PCM) <;>
  cases h5 : (chooseRomDir env.midi.romdir).warned <;>
  simp [fileOpens]

theorem fileOpens_OpenFits (env : Env) (self : MidiHandler_mt32) (w : World) :
    fileOpens (eventsSince w (OpenFits env self w).2.2) = fileOpens (lookupEvents env) := by
  rw [OpenFits_events]
  split_ifs <;> simp [fileOpens_append, fileOpens, fileOpens_configEvents]

theorem sysexWrites_of_isLookup (l : List Event) (h : ∀ e ∈ l, e.isLookup = true) :
    sysexWrites l = [] ∧ reverbOverrides l = [] := by
  induction l with
  | nil => exact ⟨rfl, rfl⟩
  | cons x xs ih =>
    have hx := h x (List.mem_cons_self _ _)
    have ih' := ih (fun e he => h e (List.mem_cons_of_mem _ he))
    cases x <;> simp [Event.isLookup] at hx <;> simp [sysexWrites, reverbOverrides, ih']

theorem sysexWrites_lookupEvents (env : Env) :
    sysexWrites (lookupEvents env) = [] ∧ reverbOverrides (lookupEvents env) = [] :=
  sysexWrites_of_isLookup _ (lookupEvents_isLookup env)

theorem reverbsysex_eq (midi : Section_prop) :
    reverbsysex midi =
      [0x10, 0x00, 0x01, toBit8u (atoi midi.reverbMode), toBit8u midi.reverbTime,
        toBit8u midi.reverbLevel] := rfl

theorem sysexWrites_OpenFits (env : Env) (self : MidiHandler_mt32) (w : World) :
    (sysexWrites (eventsSince w (OpenFits env self w).2.2) =
        if (OpenFits env self w).1 = true ∧ env.midi.reverbMode ≠ "auto".toList then
          [(16, reverbsysex env.midi)] else [])
    ∧ (reverbOverrides (eventsSince w (OpenFits env self w).2.2) =
        if (OpenFits env self w).1 = true ∧ env.midi.reverbMode ≠ "auto".toList then
          [(w.nextHandle, true)] else []) := by
  have hl := sysexWrites_lookupEvents env
  rw [OpenFits_events]
  unfold OpenFits
  split_ifs <;>
    simp_all [sysexWrites_append, reverbOverrides_append, sysexWrites, reverbOverrides,
      configEvents] <;>
    (split_ifs <;> simp [sysexWrites, reverbOverrides])

theorem toBit8u_lt (x : Int) : toBit8u x < 2 ^ 8 := by
  unfold toBit8u
  omega

theorem atoi_int_range (s : CString) : -(2 : Int) ^ 31 ≤ atoi s ∧ atoi s < 2 ^ 31 := by
  unfold atoi toInt
  omega

theorem getLast_longDir : longDir.getLast? = some 'a' := by
  unfold longDir
  rw [List.getLast?_eq_getElem?, List.length_replicate, List.getElem?_replicate]
  rfl

theorem getLast_longDirSlash : longDirSlash.getLast? = some '/' := by
  unfold longDirSlash
  exact List.getLast?_concat _

theorem Open_rom_lookup_of_fits (env : Env) (self : MidiHandler_mt32) (w : World)
    (hfit : romFits env = true) :
    ∃ b s1 w1, self.Open env w = some (b, s1, w1)
    ∧ fileOpens (eventsSince w w1) =
      romPath env CM32L_CONTROL ::
        ((if env.canOpen (romPath env CM32L_CONTROL) then [] else [romPath env MT32_CONTROL])
          ++ (if env.canOpen (romPath env CM32L_CONTROL) || env.canOpen (romPath env MT32_CONTROL)
              then romPath env CM32L_PCM ::
                (if env.canOpen (romPath env CM32L_PCM) then [] else [romPath env MT32_PCM])
              else []))
    ∧ (controlFound env = true → pcmFound env = true →
        romImages (eventsSince w w1) = [controlROMFile env, pcmROMFile env])
    ∧ (controlFound env = false ∨ pcmFound env = false →
        b = false ∧ s1 = self
        ∧ synthsCreated (eventsSince w w1) = []
        ∧ channelsAdded (eventsSince w w1) = []
        ∧ w1.synths = w.synths ∧ w1.channels = w.channels) := by
  have hl : ∀ e ∈ lookupEvents env, e.isLookup = true := lookupEvents_isLookup env
  have hro : ∀ l : List Event, (∀ e ∈ l, e.isLookup = true) →
      romImages l = [] ∧ synthsCreated l = [] ∧ channelsAdded l = [] := by
    intro l h
    induction l with
    | nil => exact ⟨rfl, rfl, rfl⟩
    | cons x xs ih =>
      have hx := h x (List.mem_cons_self _ _)
      have ih' := ih (fun e he => h e (List.mem_cons_of_mem _ he))
      cases x <;> simp [Event.isLookup] at hx <;>
        simp [romImages, synthsCreated, channelsAdded, ih']
  have hcfg : ∀ h, romImages (configEvents env h) = [] := by
    intro h
    unfold configEvents
    split_ifs <;> simp [romImages]
  obtain ⟨hr1, hr2, hr3⟩ := hro _ hl
  refine ⟨(OpenFits env self w).1, (OpenFits env self w).2.1, (OpenFits env self w).2.2,
    Open_eq_of_fits env self w hfit, ?_, ?_, ?_⟩
  · rw [fileOpens_OpenFits, fileOpens_lookupEvents]
  · intro hc hp
    rw [OpenFits_events]
    simp only [hc, hp, Bool.true_eq_false, if_false]
    split_ifs <;> simp [romImages_append, romImages, hr1, hcfg]
  · intro hmiss
    rw [OpenFits_events]
    unfold OpenFits
    rcases hmiss with hc | hp
    · simp [hc, synthsCreated_append, channelsAdded_append, synthsCreated, channelsAdded,
        hr2, hr3]
    · by_cases hc : controlFound env = false
      · simp [hc, synthsCreated_append, channelsAdded_append, synthsCreated, channelsAdded,
          hr2, hr3]
      · simp [hc, hp, synthsCreated_append, channelsAdded_append, synthsCreated,
          channelsAdded, hr2, hr3]

/-- C1, evaluated at a 4080-character `mt32.romdir` with no ROM file present:
the directory passes the length guard and is used as configured, both control
ROM files cannot be opened, and `Open` does not return false: the first
`makeROMPathName` call writes past the end of `pathName` before any file is
tried, so `Open` has no result. With the short directory `roms` and the same
filesystem `Open` returns false and leaves the handler unchanged. -/
theorem C1_long_dir_no_lookup :
    strlen longDir = 4080
    ∧ (chooseRomDir envLongDir.midi.romdir).romDir = longDir
    ∧ envLongDir.canOpen (romPath envLongDir CM32L_CONTROL) = false
    ∧ envLongDir.canOpen (romPath envLongDir MT32_CONTROL) = false
    ∧ MidiHandler_mt32.new.Open envLongDir World.empty = none
    ∧ (MidiHandler_mt32.new.Open envNoRoms World.empty).map (fun r => (r.1, r.2.1))
        = some (false, MidiHandler_mt32.new) := by
  refine ⟨strlen_longDir, ?_, rfl, rfl, Open_eq_none _ _ _ (romFits_longDir _ rfl), by decide⟩
  have : envLongDir.midi.romdir = some longDir := rfl
  rw [this, chooseRomDir_longDir]

/-- C2, evaluated at the two 4080-character directories: each meets the length
bounds of the path rule, one ends in `a` and one in `/`, and for neither is a
path passed to a file open: `makeROMPathName` writes past the end of `pathName`
for `CM32L_CONTROL.ROM`, the first name built, and `Open` has no result. -/
theorem C2_long_dir_no_path :
    1 ≤ strlen longDir ∧ strlen longDir ≤ 4080
    ∧ longDir.getLast? = some 'a'
    ∧ makeROMPathName pathNameSize longDir CM32L_CONTROL true = none
    ∧ MidiHandler_mt32.new.Open envLongDirAll World.empty = none
    ∧ 1 ≤ strlen longDirSlash ∧ strlen longDirSlash ≤ 4080
    ∧ longDirSlash.getLast? = some '/'
    ∧ makeROMPathName pathNameSize longDirSlash CM32L_CONTROL false = none
    ∧ MidiHandler_mt32.new.Open envLongDirSlash World.empty = none := by
  have h1 := strlen_longDir
  have h2 := strlen_longDirSlash
  exact ⟨by omega, by omega, getLast_longDir, makeROMPathName_longDir,
    Open_eq_none _ _ _ (romFits_longDir _ rfl), by omega, by omega, getLast_longDirSlash,
    makeROMPathName_longDirSlash, Open_eq_none _ _ _ (romFits_longDirSlash _ rfl)⟩

theorem path_resolution_of_short (env : Env) (self : MidiHandler_mt32) (w : World)
    (d : CString) (hd : env.midi.romdir = some d) (h1 : 1 ≤ strlen d) (h2 : strlen d ≤ 4077) :
    (d.getLast? ≠ some '/' → d.getLast? ≠ some '\\' →
      ∀ f, romPath env f = d ++ "/".toList ++ f)
    ∧ (d.getLast? = some '/' ∨ d.getLast? = some '\\' → ∀ f, romPath env f = d ++ f)
    ∧ (∀ f ∈ romFileNames,
        makeROMPathName pathNameSize (chooseRomDir env.midi.romdir).romDir f
          (chooseRomDir env.midi.romdir).addPathSeparator = some (romPath env f))
    ∧ ∃ b s1 w1, self.Open env w = some (b, s1, w1)
        ∧ (fileOpens (eventsSince w w1)).head? = some (romPath env CM32L_CONTROL)
        ∧ ∀ p ∈ fileOpens (eventsSince w w1), ∃ f ∈ romFileNames, p = romPath env f := by
  have hne : d ≠ [] := by
    intro h
    simp [h, strlen] at h1
  have hlast : d.getLast? = some (d.getLast hne) := List.getLast?_eq_getLast d hne
  have hdir := chooseRomDir_in_range d h1 (by omega)
  rw [getD_last d _ hne] at hdir
  have hfit := romFits_of_short env d hd h1 h2
  refine ⟨?_, ?_, fun f hf => makeROMPathName_of_fits env hfit f hf, ?_⟩
  · intro hs hb f
    rw [hlast] at hs hb
    have hs' : d.getLast hne ≠ '/' := fun h => hs (by rw [h])
    have hb' : d.getLast hne ≠ '\\' := fun h => hb (by rw [h])
    simp [romPath, hd, hdir, joinPath, hs', hb']
  · intro hsep f
    rw [hlast] at hsep
    rcases hsep with h | h
    · have h' : d.getLast hne = '/' := by simpa using h
      simp [romPath, hd, hdir, joinPath, h']
    · have h' : d.getLast hne = '\\' := by simpa using h
      simp [romPath, hd, hdir, joinPath, h']
  · obtain ⟨b, s1, w1, hopen, hfo, -, -⟩ := Open_rom_lookup_of_fits env self w hfit
    refine ⟨b, s1, w1, hopen, by rw [hfo]; rfl, ?_⟩
    intro p hp
    rw [hfo] at hp
    simp only [romFileNames, List.mem_cons, List.mem_singleton, exists_eq_or_imp,
      exists_eq_left, List.not_mem_nil, false_and, exists_false, or_false]
    simp only [List.mem_cons, List.mem_append] at hp
    rcases hp with hp | hp | hp
    · exact Or.inl hp
    · split_ifs at hp <;> simp_all
    · split_ifs at hp <;> simp_all

theorem OpenFits_events_lookup (env : Env) (self : MidiHandler_mt32) (w : World) :
    ∃ tail, eventsSince w (OpenFits env self w).2.2 = lookupEvents env ++ tail := by
  rw [OpenFits_events]
  split_ifs <;> exact ⟨_, rfl⟩

theorem lookupEvents_head (env : Env) :
    ∃ tail, lookupEvents env =
      (if (chooseRomDir env.midi.romdir).warned then
        [Event.LOG_MSG "MT32: mt32.romdir is too long, using the current dir."] else [])
      ++ Event.fileOpen (romPath env CM32L_CONTROL) (env.canOpen (romPath env CM32L_CONTROL))
      :: tail := by
  unfold lookupEvents
  refine ⟨(if env.canOpen (romPath env CM32L_CONTROL) then [] else
      [Event.fileOpen (romPath env MT32_CONTROL) (env.canOpen (romPath env MT32_CONTROL))])
    ++ (if env.canOpen (romPath env CM32L_CONTROL) || env.canOpen (romPath env MT32_CONTROL) then
      [Event.fileOpen (romPath env CM32L_PCM) (env.canOpen (romPath env CM32L_PCM))]
      ++ (if env.canOpen (romPath env CM32L_PCM) then [] else
        [Event.fileOpen (romPath env MT32_PCM) (env.canOpen (romPath env MT32_PCM))])
    else []), ?_⟩
  simp only [List.append_assoc, List.singleton_append, List.cons_append, List.nil_append]

/-- C3. Directory defaulting: when `mt32.romdir` is unset (NULL), empty or
longer than 4080, the directory used is `./` and no separator is added, every
path built is `"./" ++ f` and fits in `pathName`, and `Open` returns a result
whose file opens are exactly the `./` paths of the ROM lookup, starting with
`./CM32L_CONTROL.ROM`. In the too-long case the first call of `Open` is the
warning log line, the next one the open of `./CM32L_CONTROL.ROM`, and `Open`
then does exactly what it does with `./` configured (same result, same
handler, same calls); in the unset and empty cases no warning is logged, the
first call is the open of `./CM32L_CONTROL.ROM`, and `Open` does exactly what
it does with `./` configured. -/
theorem C3_directory_default (env : Env) (self : MidiHandler_mt32) (w : World)
    (h : env.midi.romdir = none ∨ env.midi.romdir = some []
      ∨ ∃ d, env.midi.romdir = some d ∧ 4080 < strlen d) :
    (chooseRomDir env.midi.romdir).romDir = "./".toList
    ∧ (chooseRomDir env.midi.romdir).addPathSeparator = false
    ∧ (∀ f ∈ romFileNames,
        makeROMPathName pathNameSize (chooseRomDir env.midi.romdir).romDir f
          (chooseRomDir env.midi.romdir).addPathSeparator = some ("./".toList ++ f))
    ∧ (∃ b s1 w1, self.Open env w = some (b, s1, w1)
        ∧ fileOpens (eventsSince w w1) =
            ("./".toList ++ CM32L_CONTROL) ::
              ((if env.canOpen ("./".toList ++ CM32L_CONTROL) then []
                  else ["./".toList ++ MT32_CONTROL])
                ++ (if env.canOpen ("./".toList ++ CM32L_CONTROL)
                      || env.canOpen ("./".toList ++ MT32_CONTROL)
                    then ("./".toList ++ CM32L_PCM) ::
                      (if env.canOpen ("./".toList ++ CM32L_PCM) then []
                        else ["./".toList ++ MT32_PCM])
                    else []))
        ∧ ((∃ d, env.midi.romdir = some d ∧ 4080 < strlen d) →
            ∃ rest, eventsSince w w1 =
              Event.LOG_MSG "MT32: mt32.romdir is too long, using the current dir."
              :: Event.fileOpen ("./".toList ++ CM32L_CONTROL)
                  (env.canOpen ("./".toList ++ CM32L_CONTROL))
              :: rest)
        ∧ (env.midi.romdir = none ∨ env.midi.romdir = some [] →
            ∃ rest, eventsSince w w1 =
              Event.fileOpen ("./".toList ++ CM32L_CONTROL)
                  (env.canOpen ("./".toList ++ CM32L_CONTROL))
              :: rest))
    ∧ ((∃ d, env.midi.romdir = some d ∧ 4080 < strlen d) →
        self.Open env w =
          self.Open (env.withRomdir (some "./".toList))
            (w.emit (Event.LOG_MSG "MT32: mt32.romdir is too long, using the current dir.")))
    ∧ (env.midi.romdir = none ∨ env.midi.romdir = some [] →
        self.Open env w = self.Open (env.withRomdir (some "./".toList)) w) := by
  have hc := chooseRomDir_default env.midi.romdir h
  have hfit := romFits_default env h
  have key : ∀ f, romPath env f = "./".toList ++ f := by
    intro f
    simp [romPath, hc, joinPath]
  refine ⟨by rw [hc], by rw [hc], ?_, ?_, ?_, ?_⟩
  · intro f hf
    rw [makeROMPathName_of_fits env hfit f hf, key]
  · refine ⟨(OpenFits env self w).1, (OpenFits env self w).2.1, (OpenFits env self w).2.2,
      Open_eq_of_fits env self w hfit, ?_, ?_, ?_⟩
    · rw [fileOpens_OpenFits, fileOpens_lookupEvents]
      simp only [key]
    · rintro ⟨d, hd, hlen⟩
      have hw : (chooseRomDir env.midi.romdir).warned = true := by
        rw [hc, hd]; simpa using hlen
      obtain ⟨t1, ht1⟩ := OpenFits_events_lookup env self w
      obtain ⟨t2, ht2⟩ := lookupEvents_head env
      rw [ht1, ht2, hw, key]
      exact ⟨t2 ++ t1, by simp⟩
    · intro h0
      have hw : (chooseRomDir env.midi.romdir).warned = false := by
        rcases h0 with h0 | h0 <;> rw [hc, h0] <;> rfl
      obtain ⟨t1, ht1⟩ := OpenFits_events_lookup env self w
      obtain ⟨t2, ht2⟩ := lookupEvents_head env
      rw [ht1, ht2, hw, key]
      exact ⟨t2 ++ t1, by simp⟩
  · rintro ⟨d, hd, hlen⟩
    have hw : (chooseRomDir env.midi.romdir).warned = true := by
      rw [hc, hd]; simpa using hlen
    simp only [MidiHandler_mt32.Open, Env.withRomdir, chooseRomDir_dot_slash, hw]
    rw [hc]
    rfl
  · intro h0
    have hw : (chooseRomDir env.midi.romdir).warned = false := by
      rcases h0 with h0 | h0 <;> rw [hc, h0] <;> rfl
    simp only [MidiHandler_mt32.Open, Env.withRomdir, chooseRomDir_dot_slash, hw]
    rw [hc]
    rfl

/-- C3 at a 4081-character directory: `./` is used, `Open` returns, its first
call is the warning and its second the open of `./CM32L_CONTROL.ROM`. -/
theorem C3_directory_default_witness :
    4080 < strlen tooLongDir
    ∧ (chooseRomDir envTooLong.midi.romdir).romDir = "./".toList
    ∧ makeROMPathName pathNameSize (chooseRomDir envTooLong.midi.romdir).romDir CM32L_CONTROL
        (chooseRomDir envTooLong.midi.romdir).addPathSeparator
        = some ("./".toList ++ CM32L_CONTROL)
    ∧ (∃ b s1 w1, MidiHandler_mt32.new.Open envTooLong World.empty = some (b, s1, w1)
        ∧ ∃ rest, eventsSince World.empty w1 =
            Event.LOG_MSG "MT32: mt32.romdir is too long, using the current dir."
            :: Event.fileOpen ("./".toList ++ CM32L_CONTROL)
                (envTooLong.canOpen ("./".toList ++ CM32L_CONTROL))
            :: rest)
    ∧ MidiHandler_mt32.new.Open envTooLong World.empty =
        MidiHandler_mt32.new.Open (envTooLong.withRomdir (some "./".toList))
          (World.empty.emit
            (Event.LOG_MSG "MT32: mt32.romdir is too long, using the current dir.")) :=
  have hlong : 4080 < strlen tooLongDir := by rw [strlen_tooLongDir]; omega
  have hthm := C3_directory_default envTooLong MidiHandler_mt32.new World.empty
    (Or.inr (Or.inr ⟨tooLongDir, rfl, hlong⟩))
  ⟨hlong, hthm.1, hthm.2.2.1 CM32L_CONTROL (by simp [romFileNames]),
    (let ⟨b, s1, w1, ho, _, hwarn, _⟩ := hthm.2.2.2.1
     ⟨b, s1, w1, ho, hwarn ⟨tooLongDir, rfl, hlong⟩⟩),
    hthm.2.2.2.2.1 ⟨tooLongDir, rfl, hlong⟩⟩

/-- C4, evaluated where the engine rejects the ROM images: `Open` on a freshly
constructed handler returns false, yet the handler is not in its state before
the call: `synth` holds the engine instance 0, which is still live, and since
`open` is false a following `Close` releases nothing. -/
theorem C4_engine_reject_keeps_synth :
    (MidiHandler_mt32.new.Open envEngineRejects World.empty).map (fun r => r.1) = some false
    ∧ (MidiHandler_mt32.new.Open envEngineRejects World.empty).map (fun r => r.2.1)
        = some { chan := none, synth := some 0, open_ := false, noise := false }
    ∧ (MidiHandler_mt32.new.Open envEngineRejects World.empty).map (fun r => r.2.1)
        ≠ some MidiHandler_mt32.new
    ∧ (MidiHandler_mt32.new.Open envEngineRejects World.empty).map (fun r => r.2.2.synths)
        = some [0]
    ∧ (MidiHandler_mt32.new.Open envEngineRejects World.empty).map
        (fun r => synthsCreated (eventsSince World.empty r.2.2)) = some [0]
    ∧ (MidiHandler_mt32.new.Open envEngineRejects World.empty).map
        (fun r => decide (Event.deleteSynth 0 ∈ eventsSince World.empty r.2.2)) = some false
    ∧ (MidiHandler_mt32.new.Open envEngineRejects World.empty).bind
        (fun r => r.2.1.Close r.2.2)
        = (MidiHandler_mt32.new.Open envEngineRejects World.empty).map
            (fun r => (r.2.1, r.2.2)) := by
  decide

/-- C9, evaluated at a 4080-character `mt32.romdir`: the directory passes the
length guard and is used as configured; the first path `Open` builds
(`CM32L_CONTROL.ROM`) needs 4099 bytes with its terminating NUL when a
separator is added and 4098 bytes when the directory already ends in `/`, both
more than the 4096 bytes of `pathName`, so `makeROMPathName` writes past the
end of the buffer and `Open` has no result. -/
theorem C9_pathName_overflow :
    strlen longDir = 4080
    ∧ (chooseRomDir (some longDir)).romDir = longDir
    ∧ (chooseRomDir (some longDir)).addPathSeparator = true
    ∧ pathNameBytes longDir CM32L_CONTROL true = 4099
    ∧ pathNameSize < pathNameBytes longDir CM32L_CONTROL true
    ∧ makeROMPathName pathNameSize longDir CM32L_CONTROL true = none
    ∧ MidiHandler_mt32.new.Open envLongDir World.empty = none
    ∧ strlen longDirSlash = 4080
    ∧ (chooseRomDir (some longDirSlash)).romDir = longDirSlash
    ∧ (chooseRomDir (some longDirSlash)).addPathSeparator = false
    ∧ pathNameBytes longDirSlash CM32L_CONTROL false = 4098
    ∧ pathNameSize < pathNameBytes longDirSlash CM32L_CONTROL false
    ∧ makeROMPathName pathNameSize longDirSlash CM32L_CONTROL false = none
    ∧ MidiHandler_mt32.new.Open envLongDirSlash World.empty = none := by
  refine ⟨strlen_longDir, by rw [chooseRomDir_longDir], by rw [chooseRomDir_longDir],
    pathNameBytes_longDir, by rw [pathNameBytes_longDir]; decide, makeROMPathName_longDir,
    Open_eq_none _ _ _ (romFits_longDir _ rfl), strlen_longDirSlash,
    by rw [chooseRomDir_longDirSlash], by rw [chooseRomDir_longDirSlash],
    pathNameBytes_longDirSlash, by rw [pathNameBytes_longDirSlash]; decide,
    makeROMPathName_longDirSlash, Open_eq_none _ _ _ (romFits_longDirSlash _ rfl)⟩

theorem pathNameBytes_fits (configured : Option CString) (f : CString)
    (hf : f ∈ romFileNames)
    (h : strlen (configured.getD []) ≤ 4077 ∨ 4080 < strlen (configured.getD [])) :
    pathNameBytes (chooseRomDir configured).romDir f
      (chooseRomDir configured).addPathSeparator ≤ pathNameSize := by
  have hlen : strlen f ≤ 17 := strlen_romFileNames f hf
  have hdot : strlen "./".toList = 2 := by decide
  unfold pathNameSize pathNameBytes
  by_cases hdef : configured = none ∨ configured = some []
      ∨ ∃ d, configured = some d ∧ 4080 < strlen d
  · rw [chooseRomDir_default configured hdef]
    simp only [hdot]
    simp
    omega
  · cases configured with
    | none => exact absurd (Or.inl rfl) hdef
    | some d =>
      have h1 : 1 ≤ strlen d := by
        rcases d with _ | ⟨c, cs⟩
        · exact absurd (Or.inr (Or.inl rfl)) hdef
        · simp [strlen]
      have h2 : strlen d ≤ 4080 := by
        by_contra hgt
        exact hdef (Or.inr (Or.inr ⟨d, rfl, by omega⟩))
      rw [chooseRomDir_in_range d h1 h2]
      simp only [Option.getD_some] at h
      have h3 : strlen d ≤ 4077 := by omega
      simp only
      split_ifs <;> omega

/-- C6 fails: after a successful `Open`, a second `Open` with no `Close` in
between is not rejected (it returns true) and releases nothing (no engine is
deleted, no channel removed): two engine instances and two mixer channels
created by the handler are live, and the handler only points to the second
ones. -/
theorem C6_reopen_leaks :
    (MidiHandler_mt32.new.Open envOK World.empty).map (fun r => r.1) = some true
    ∧ (MidiHandler_mt32.new.Open envOK World.empty).map (fun r => r.2.2.synths) = some [0]
    ∧ (MidiHandler_mt32.new.Open envOK World.empty).map (fun r => r.2.2.channels) = some [1]
    ∧ ((MidiHandler_mt32.new.Open envOK World.empty).bind
        (fun r => r.2.1.Open envOK r.2.2)).map (fun r => r.1) = some true
    ∧ ((MidiHandler_mt32.new.Open envOK World.empty).bind
        (fun r => r.2.1.Open envOK r.2.2)).map (fun r => r.2.2.synths) = some [0, 2]
    ∧ ((MidiHandler_mt32.new.Open envOK World.empty).bind
        (fun r => r.2.1.Open envOK r.2.2)).map (fun r => r.2.2.channels) = some [1, 3]
    ∧ ((MidiHandler_mt32.new.Open envOK World.empty).bind
        (fun r => r.2.1.Open envOK r.2.2)).map (fun r => r.2.1)
        = some { chan := some 3, synth := some 2, open_ := true, noise := false }
    ∧ ((MidiHandler_mt32.new.Open envOK World.empty).bind
        (fun r => r.2.1.Open envOK r.2.2)).map
          (fun r => decide (Event.deleteSynth 0 ∈ r.2.2.trace)) = some false
    ∧ ((MidiHandler_mt32.new.Open envOK World.empty).bind
        (fun r => r.2.1.Open envOK r.2.2)).map
          (fun r => decide (Event.MIXER_DelChannel 1 ∈ r.2.2.trace)) = some false := by
  decide

/-- C5. `Close` is idempotent: for every handler state and world, `Close`
followed by `Close` gives the same handler, the same world and the same calls
as a single `Close`; on a handler with `open = false` it changes no field and
makes no call; on an open handler it disables and removes the mixer channel,
closes and deletes the engine, in that order, and leaves `open = false`,
`chan = NULL`, `synth = NULL`. -/
theorem C5_close_idempotent (self : MidiHandler_mt32) (w : World) :
    ((self.Close w).bind fun r => r.1.Close r.2) = self.Close w
    ∧ (self.open_ = false → self.Close w = some (self, w))
    ∧ (∀ c h, self.open_ = true → self.chan = some c → self.synth = some h →
        self.Close w = some
          ({ chan := none, synth := none, open_ := false, noise := self.noise },
           { nextHandle := w.nextHandle,
             synths := w.synths.erase h,
             channels := w.channels.erase c,
             trace := w.trace ++ [Event.chanEnable c false, Event.MIXER_DelChannel c,
               Event.synthClose h, Event.deleteSynth h] })) := by
  refine ⟨?_, ?_, ?_⟩
  · cases ho : self.open_
    · simp [MidiHandler_mt32.Close, ho]
    · cases hc : self.chan <;> cases hs : self.synth <;>
        simp [MidiHandler_mt32.Close, ho, hc, hs]
  · intro ho
    simp [MidiHandler_mt32.Close, ho]
  · intro c h ho hc hs
    simp [MidiHandler_mt32.Close, ho, hc, hs, World.emit, World.MIXER_DelChannel,
      World.deleteSynth]

/-- C5 on a never-opened handler and on an open handler. -/
theorem C5_close_idempotent_witness :
    MidiHandler_mt32.new.Close World.empty = some (MidiHandler_mt32.new, World.empty)
    ∧ openHandler.Close openWorld = some
        ({ chan := none, synth := none, open_ := false, noise := false },
         { nextHandle := 2, synths := [], channels := [],
           trace := [Event.chanEnable 1 false, Event.MIXER_DelChannel 1,
             Event.synthClose 0, Event.deleteSynth 0] }) :=
  ⟨(C5_close_idempotent MidiHandler_mt32.new World.empty).2.1 rfl,
    (C5_close_idempotent openHandler openWorld).2.2 1 0 rfl rfl rfl⟩

/-- C10. `PlayMsg` on a 4-byte buffer, on a host of either byte order: the
engine's `playMsg` is called exactly once, with the word
`msg[0] + msg[1]*2^8 + msg[2]*2^16 + msg[3]*2^24`, and nothing else changes. -/
theorem C10_playMsg_little_endian (bigEndianHost : Bool) (self : MidiHandler_mt32) (w : World)
    (h b0 b1 b2 b3 : Nat) (hsynth : self.synth = some h)
    (h0 : b0 < 256) (h1 : b1 < 256) (h2 : b2 < 256) (h3 : b3 < 256) :
    self.PlayMsg bigEndianHost [b0, b1, b2, b3] w =
      some { w with trace := w.trace ++
        [Event.playMsg h (b0 + b1 * 2 ^ 8 + b2 * 2 ^ 16 + b3 * 2 ^ 24)] } := by
  cases bigEndianHost
  · simp only [MidiHandler_mt32.PlayMsg, loadBit32u, hsynth, SDL_SwapLE32, World.emit,
      Nat.mod_eq_of_lt h0, Nat.mod_eq_of_lt h1, Nat.mod_eq_of_lt h2, Nat.mod_eq_of_lt h3]
    rfl
  · simp only [MidiHandler_mt32.PlayMsg, loadBit32u, hsynth, SDL_SwapLE32, World.emit,
      Nat.mod_eq_of_lt h0, Nat.mod_eq_of_lt h1, Nat.mod_eq_of_lt h2, Nat.mod_eq_of_lt h3,
      if_true]
    have : SDL_Swap32 (b0 * 2 ^ 24 + b1 * 2 ^ 16 + b2 * 2 ^ 8 + b3)
        = b0 + b1 * 2 ^ 8 + b2 * 2 ^ 16 + b3 * 2 ^ 24 := by
      unfold SDL_Swap32
      norm_num
      omega
    rw [this]

/-- C10 on the note-on message `90 3C 7F 00`, big-endian host. -/
theorem C10_playMsg_little_endian_witness :
    MidiHandler_mt32.PlayMsg true
        { chan := some 1, synth := some 0, open_ := true, noise := false }
        [0x90, 0x3C, 0x7F, 0x00] World.empty =
      some { World.empty with trace := World.empty.trace ++
        [Event.playMsg 0 (0x90 + 0x3C * 2 ^ 8 + 0x7F * 2 ^ 16 + 0x00 * 2 ^ 24)] } :=
  C10_playMsg_little_endian true _ World.empty 0 0x90 0x3C 0x7F 0x00 rfl
    (by decide) (by decide) (by decide) (by decide)

theorem OpenFits_live_exact (env : Env) (self : MidiHandler_mt32) (w : World) :
    ((OpenFits env self w).2.2.synths = w.synths
      ∨ (OpenFits env self w).2.2.synths = w.synths ++ [w.nextHandle])
    ∧ ((OpenFits env self w).2.2.channels = w.channels
      ∨ (OpenFits env self w).2.2.channels = w.channels ++ [w.nextHandle + 1]) := by
  unfold OpenFits
  split_ifs
  · exact ⟨Or.inl rfl, Or.inl rfl⟩
  · exact ⟨Or.inl rfl, Or.inl rfl⟩
  · exact ⟨Or.inr rfl, Or.inl rfl⟩
  · exact ⟨Or.inr rfl, Or.inr rfl⟩

/-- C6, amended: after a successful `Open` the handler points to the new engine
and channel, which are live. A second `Open` with no `Close` in between is not
rejected and releases nothing: it returns the same result and leaves the same
world as on a freshly constructed handler, deletes no engine and removes no
channel, so the first engine and channel stay live, and when it succeeds the
new engine and channel are live beside them while the handler points only to
the new ones. When `Close` is called between the two calls, it releases the
first engine and channel before anything new is created, and after the second
`Open` at most one engine and one channel are live beyond those live before
the first `Open`, the first engine and channel are not among the live ones, and
on success the live ones are exactly those the handler points to. -/
theorem C6_reopen_needs_close (env env2 : Env) (self s1 : MidiHandler_mt32) (w w1 : World)
    (hs : ∀ h ∈ w.synths, h < w.nextHandle) (hc : ∀ c ∈ w.channels, c < w.nextHandle)
    (hopen : self.Open env w = some (true, s1, w1)) :
    (s1.synth = some w.nextHandle ∧ s1.chan = some (w.nextHandle + 1) ∧ s1.open_ = true
      ∧ w1.synths = w.synths ++ [w.nextHandle]
      ∧ w1.channels = w.channels ++ [w.nextHandle + 1])
    ∧ ((s1.Open env2 w1).map (fun r => (r.1, r.2.2))
        = (MidiHandler_mt32.new.Open env2 w1).map (fun r => (r.1, r.2.2))
      ∧ ∀ b s2 w2, s1.Open env2 w1 = some (b, s2, w2) →
          (∀ e ∈ eventsSince w1 w2,
            (∀ x, e ≠ Event.deleteSynth x) ∧ (∀ x, e ≠ Event.MIXER_DelChannel x))
          ∧ (∃ ss, w2.synths = w.synths ++ w.nextHandle :: ss)
          ∧ (∃ cs, w2.channels = w.channels ++ (w.nextHandle + 1) :: cs)
          ∧ (b = true →
              w2.synths = w.synths ++ [w.nextHandle, w.nextHandle + 2]
              ∧ w2.channels = w.channels ++ [w.nextHandle + 1, w.nextHandle + 3]
              ∧ s2.synth = some (w.nextHandle + 2) ∧ s2.chan = some (w.nextHandle + 3)
              ∧ s2.open_ = true))
    ∧ ∃ sc wc, s1.Close w1 = some (sc, wc)
        ∧ sc = { chan := none, synth := none, open_ := false, noise := s1.noise }
        ∧ eventsSince w1 wc =
            [Event.chanEnable (w.nextHandle + 1) false, Event.MIXER_DelChannel (w.nextHandle + 1),
             Event.synthClose w.nextHandle, Event.deleteSynth w.nextHandle]
        ∧ wc.synths = w.synths ∧ wc.channels = w.channels
        ∧ ∀ b s3 w3, sc.Open env2 wc = some (b, s3, w3) →
            (∃ ss, w3.synths = w.synths ++ ss ∧ ss.length ≤ 1)
            ∧ (∃ cs, w3.channels = w.channels ++ cs ∧ cs.length ≤ 1)
            ∧ w.nextHandle ∉ w3.synths ∧ w.nextHandle + 1 ∉ w3.channels
            ∧ (b = true →
                w3.synths = w.synths ++ [w.nextHandle + 2]
                ∧ w3.channels = w.channels ++ [w.nextHandle + 3]
                ∧ s3.synth = some (w.nextHandle + 2) ∧ s3.chan = some (w.nextHandle + 3)
                ∧ s3.open_ = true) := by
  obtain ⟨hs1, hsy, hch, hnh, -⟩ := Open_true env self s1 w w1 hopen
  have hn1 : w.nextHandle ∉ w.synths := fun hm => absurd (hs _ hm) (by omega)
  have hn2 : w.nextHandle + 1 ∉ w.channels := fun hm => absurd (hc _ hm) (by omega)
  refine ⟨⟨by rw [hs1], by rw [hs1], by rw [hs1], hsy, hch⟩,
    ⟨Open_independent_of_handler env2 s1 _ w1, ?_⟩, ?_⟩
  · intro b s2 w2 h2
    obtain ⟨-, hr⟩ := Open_some env2 s1 w1 _ h2
    have hw2 : w2 = (OpenFits env2 s1 w1).2.2 := by rw [← hr]
    refine ⟨?_, ?_, ?_, ?_⟩
    · intro e he
      rw [hw2] at he
      exact OpenFits_no_release env2 s1 w1 e he
    · rcases (OpenFits_live_exact env2 s1 w1).1 with h | h
      · exact ⟨[], by rw [hw2, h, hsy]⟩
      · exact ⟨[w1.nextHandle], by rw [hw2, h, hsy]; simp⟩
    · rcases (OpenFits_live_exact env2 s1 w1).2 with h | h
      · exact ⟨[], by rw [hw2, h, hch]⟩
      · exact ⟨[w1.nextHandle + 1], by rw [hw2, h, hch]; simp⟩
    · intro hb
      subst hb
      obtain ⟨hs2, hsy2, hch2, -, -⟩ := Open_true env2 s1 s2 w1 w2 h2
      rw [hs2, hsy2, hch2, hsy, hch, hnh]
      simp
  · have hclose := Close_of_open s1 w1 (w.nextHandle + 1) w.nextHandle
      (by rw [hs1]) (by rw [hs1]) (by rw [hs1])
    have he1 : w1.synths.erase w.nextHandle = w.synths := by
      rw [hsy]
      exact erase_append_fresh w.synths w.nextHandle hs 0
    have he2 : w1.channels.erase (w.nextHandle + 1) = w.channels := by
      rw [hch]
      exact erase_append_fresh w.channels w.nextHandle hc 1
    refine ⟨_, _, hclose, rfl, by simp [eventsSince], he1, he2, ?_⟩
    intro b s3 w3 h3
    obtain ⟨-, hr⟩ := Open_some _ _ _ _ h3
    have hw3 : w3 = (OpenFits env2
        { chan := none, synth := none, open_ := false, noise := s1.noise }
        { nextHandle := w1.nextHandle, synths := w1.synths.erase w.nextHandle,
          channels := w1.channels.erase (w.nextHandle + 1),
          trace := w1.trace ++ [Event.chanEnable (w.nextHandle + 1) false,
            Event.MIXER_DelChannel (w.nextHandle + 1), Event.synthClose w.nextHandle,
            Event.deleteSynth w.nextHandle] }).2.2 := by rw [← hr]
    have hlive := OpenFits_live_exact env2
        { chan := none, synth := none, open_ := false, noise := s1.noise }
        { nextHandle := w1.nextHandle, synths := w1.synths.erase w.nextHandle,
          channels := w1.channels.erase (w.nextHandle + 1),
          trace := w1.trace ++ [Event.chanEnable (w.nextHandle + 1) false,
            Event.MIXER_DelChannel (w.nextHandle + 1), Event.synthClose w.nextHandle,
            Event.deleteSynth w.nextHandle] }
    rw [← hw3] at hlive
    simp only [he1, he2, hnh] at hlive
    obtain ⟨hl1, hl2⟩ := hlive
    refine ⟨?_, ?_, ?_, ?_, ?_⟩
    · rcases hl1 with h | h
      · exact ⟨[], by rw [h]; simp, by simp⟩
      · exact ⟨[w.nextHandle + 2], h, by simp⟩
    · rcases hl2 with h | h
      · exact ⟨[], by rw [h]; simp, by simp⟩
      · exact ⟨[w.nextHandle + 2 + 1], h, by simp⟩
    · rcases hl1 with h | h <;> rw [h] <;> simp [hn1]
    · rcases hl2 with h | h <;> rw [h] <;> simp [hn2]
    · intro hb
      subst hb
      obtain ⟨hs3, hsy3, hch3, -, -⟩ := Open_true _ _ _ _ _ h3
      simp only [he1, he2, hnh] at hsy3 hch3 hs3
      rw [hsy3, hch3, hs3]
      exact ⟨rfl, rfl, rfl, rfl, rfl⟩

/-- C6 amended, in the world where engine 0 was left live by an earlier call:
`Open` succeeds with engine 1 and channel 2; after `Close` and a second
successful `Open` the live engines are 0 and the new engine 3, the only live
channel is 4, and the handler points to engine 3 and channel 4. -/
theorem C6_reopen_needs_close_witness :
    MidiHandler_mt32.new.Open envOK leakWorld =
        some (true, { chan := some 2, synth := some 1, open_ := true, noise := false },
          (OpenFits envOK MidiHandler_mt32.new leakWorld).2.2)
    ∧ ∃ sc wc, MidiHandler_mt32.Close
          { chan := some 2, synth := some 1, open_ := true, noise := false }
          (OpenFits envOK MidiHandler_mt32.new leakWorld).2.2 = some (sc, wc)
        ∧ wc.synths = leakWorld.synths ∧ wc.channels = leakWorld.channels
        ∧ ∀ b s3 w3, sc.Open envOK wc = some (b, s3, w3) →
            b = true →
              w3.synths = leakWorld.synths ++ [leakWorld.nextHandle + 2]
              ∧ w3.channels = leakWorld.channels ++ [leakWorld.nextHandle + 3]
              ∧ s3.synth = some (leakWorld.nextHandle + 2)
              ∧ s3.chan = some (leakWorld.nextHandle + 3) :=
  have hopen : MidiHandler_mt32.new.Open envOK leakWorld =
      some (true, { chan := some 2, synth := some 1, open_ := true, noise := false },
        (OpenFits envOK MidiHandler_mt32.new leakWorld).2.2) := by decide
  have hthm := C6_reopen_needs_close envOK envOK MidiHandler_mt32.new _ leakWorld _
    (by decide) (by decide) hopen
  ⟨hopen,
    (let ⟨sc, wc, hclose, _, _, hsy, hch, hnext⟩ := hthm.2.2
     ⟨sc, wc, hclose, hsy, hch, fun b s3 w3 h3 hb =>
       ⟨((hnext b s3 w3 h3).2.2.2.2 hb).1, ((hnext b s3 w3 h3).2.2.2.2 hb).2.1,
        ((hnext b s3 w3 h3).2.2.2.2 hb).2.2.1, ((hnext b s3 w3 h3).2.2.2.2 hb).2.2.2.1⟩⟩)⟩

theorem atoi_saturates :
    strtol "100000000000000000000".toList = LONG_MAX
    ∧ atoi "100000000000000000000".toList = -1
    ∧ toBit8u (atoi "100000000000000000000".toList) = 255
    ∧ atoi "2147483648".toList = -2147483648 := by
  decide

/-- C7. Reverb override of `Open`, for every configuration and every call of
`Open` that returns: when `mt32.reverb.mode` is the literal `auto`, `Open`
writes no sysex message and never marks reverb overridden; otherwise a
successful `Open` writes exactly one message, to channel 16, with the six
bytes `[0x10, 0x00, 0x01, m, t, l]` where `m`, `t`, `l` are `atoi(mode)` (an
`int`), the time and the level truncated to 8 bits, and the next call marks the
same engine (the one the handler holds) as reverb-overridden, once. -/
theorem C7_reverb_override (env : Env) (self s1 : MidiHandler_mt32) (w w1 : World) (b : Bool)
    (hopen : self.Open env w = some (b, s1, w1)) :
    (env.midi.reverbMode = "auto".toList →
        sysexWrites (eventsSince w w1) = []
        ∧ reverbOverrides (eventsSince w w1) = [])
    ∧ (env.midi.reverbMode ≠ "auto".toList → b = true →
        sysexWrites (eventsSince w w1) =
          [(16, [0x10, 0x00, 0x01, toBit8u (atoi env.midi.reverbMode),
                 toBit8u env.midi.reverbTime, toBit8u env.midi.reverbLevel])]
        ∧ toBit8u (atoi env.midi.reverbMode) < 2 ^ 8
        ∧ toBit8u env.midi.reverbTime < 2 ^ 8
        ∧ toBit8u env.midi.reverbLevel < 2 ^ 8
        ∧ -(2 : Int) ^ 31 ≤ atoi env.midi.reverbMode ∧ atoi env.midi.reverbMode < 2 ^ 31
        ∧ reverbOverrides (eventsSince w w1) = [(w.nextHandle, true)]
        ∧ s1.synth = some w.nextHandle
        ∧ ∃ pre post, eventsSince w w1 =
            pre ++ [Event.writeSysex w.nextHandle 16
                      [0x10, 0x00, 0x01, toBit8u (atoi env.midi.reverbMode),
                       toBit8u env.midi.reverbTime, toBit8u env.midi.reverbLevel],
                    Event.setReverbOverridden w.nextHandle true] ++ post) := by
  obtain ⟨-, hr⟩ := Open_some env self w _ hopen
  have hsys := sysexWrites_OpenFits env self w
  rw [← hr] at hsys
  simp only at hsys
  constructor
  · intro hauto
    simp [hsys.1, hsys.2, hauto]
  · intro hmode0 hb
    subst hb
    have hmode : env.midi.reverbMode ≠ ['a', 'u', 't', 'o'] := hmode0
    obtain ⟨hs1, -, -, -, hev⟩ := Open_true env self s1 w w1 hopen
    refine ⟨by simp [hsys.1, hmode, reverbsysex_eq], toBit8u_lt _, toBit8u_lt _, toBit8u_lt _,
      (atoi_int_range _).1, (atoi_int_range _).2, by simp [hsys.2, hmode], by rw [hs1], ?_⟩
    refine ⟨lookupEvents env ++
        [Event.makeROMImage (controlROMFile env), Event.makeROMImage (pcmROMFile env),
          Event.newSynth w.nextHandle,
          Event.synthOpen w.nextHandle (controlROMFile env) (pcmROMFile env) true,
          Event.freeROMImage (controlROMFile env), Event.freeROMImage (pcmROMFile env)],
      (if env.midi.dac = "auto".toList then []
        else [Event.setDACInputMode w.nextHandle (atoi env.midi.dac)])
      ++ [Event.setReversedStereoEnabled w.nextHandle
            (decide (env.midi.reverseStereo = "on".toList)),
          Event.MIXER_AddChannel (w.nextHandle + 1) env.SAMPLE_RATE "MT32",
          Event.chanEnable (w.nextHandle + 1) true], ?_⟩
    rw [hev]
    simp [configEvents, hmode, reverbsysex_eq]

/-- C7 at mode `"2"`, time 5, level 12: `Open` succeeds and the message is
exactly `[0x10, 0x00, 0x01, 0x02, 5, 12]` on channel 16. -/
theorem C7_reverb_override_witness :
    envReverb.midi.reverbMode ≠ "auto".toList
    ∧ MidiHandler_mt32.new.Open envReverb World.empty =
        some (true, { chan := some 1, synth := some 0, open_ := true, noise := false },
          (OpenFits envReverb MidiHandler_mt32.new World.empty).2.2)
    ∧ sysexWrites (eventsSince World.empty
          (OpenFits envReverb MidiHandler_mt32.new World.empty).2.2) =
        [(16, [0x10, 0x00, 0x01, 0x02, 5, 12])]
    ∧ reverbOverrides (eventsSince World.empty
          (OpenFits envReverb MidiHandler_mt32.new World.empty).2.2) = [(0, true)] :=
  have hopen : MidiHandler_mt32.new.Open envReverb World.empty =
      some (true, { chan := some 1, synth := some 0, open_ := true, noise := false },
        (OpenFits envReverb MidiHandler_mt32.new World.empty).2.2) := by decide
  ⟨by decide, hopen,
    ((C7_reverb_override envReverb MidiHandler_mt32.new _ World.empty _ true hopen).2
      (by decide) rfl).1,
    ((C7_reverb_override envReverb MidiHandler_mt32.new _ World.empty _ true hopen).2
      (by decide) rfl).2.2.2.2.2.2.1⟩

/-- C8 fails as worded: with mode `"2"`, time 5 and level 12 the message `Open`
writes is `[0x10, 0x00, 0x01, 2, 5, 12]`; its third byte is the constant
`0x01`, not the mode (and is the same for mode `"0"`), its fourth byte is the
mode, not the time, and its fifth byte is the time, not the level. -/
theorem C8_third_byte_not_mode :
    (MidiHandler_mt32.new.Open envReverb World.empty).map
        (fun r => sysexWrites (eventsSince World.empty r.2.2)) =
      some [(16, [0x10, 0x00, 0x01, 0x02, 5, 12])]
    ∧ toBit8u (atoi envReverb.midi.reverbMode) = 2
    ∧ toBit8u envReverb.midi.reverbTime = 5
    ∧ toBit8u envReverb.midi.reverbLevel = 12
    ∧ (reverbsysex envReverb.midi)[2]? = some 1
    ∧ (reverbsysex envReverb.midi)[2]? ≠ some (toBit8u (atoi envReverb.midi.reverbMode))
    ∧ (reverbsysex envReverb.midi)[3]? ≠ some (toBit8u envReverb.midi.reverbTime)
    ∧ (reverbsysex envReverb.midi)[4]? ≠ some (toBit8u envReverb.midi.reverbLevel)
    ∧ (reverbsysex { envReverb.midi with reverbMode := "0".toList })[2]?
        = (reverbsysex envReverb.midi)[2]? := by
  decide

/-- C8, amended: in the 6-byte reverb message, the first three bytes are the
constants `0x10, 0x00, 0x01`, the fourth byte (index 3) is the mode, read by
`atoi` as an `int`, the fifth byte (index 4) the time and the sixth byte
(index 5) the level, each truncated to 8 bits; and for every non-`auto` mode
this is the message a successful `Open` writes to the engine, and the only
one. -/
theorem C8_byte_layout (env : Env) (self s1 : MidiHandler_mt32) (w w1 : World)
    (hmode0 : env.midi.reverbMode ≠ "auto".toList)
    (hopen : self.Open env w = some (true, s1, w1)) :
    (reverbsysex env.midi).length = 6
    ∧ (reverbsysex env.midi)[0]? = some 0x10
    ∧ (reverbsysex env.midi)[1]? = some 0x00
    ∧ (reverbsysex env.midi)[2]? = some 0x01
    ∧ (reverbsysex env.midi)[3]? = some (toBit8u (atoi env.midi.reverbMode))
    ∧ (reverbsysex env.midi)[4]? = some (toBit8u env.midi.reverbTime)
    ∧ (reverbsysex env.midi)[5]? = some (toBit8u env.midi.reverbLevel)
    ∧ -(2 : Int) ^ 31 ≤ atoi env.midi.reverbMode ∧ atoi env.midi.reverbMode < 2 ^ 31
    ∧ Event.writeSysex w.nextHandle 16 (reverbsysex env.midi) ∈ eventsSince w w1
    ∧ ∀ h ch bytes, Event.writeSysex h ch bytes ∈ eventsSince w w1 →
        bytes = reverbsysex env.midi := by
  have hmode : env.midi.reverbMode ≠ ['a', 'u', 't', 'o'] := hmode0
  obtain ⟨-, -, -, -, hev⟩ := Open_true env self s1 w w1 hopen
  refine ⟨rfl, rfl, rfl, rfl, rfl, rfl, rfl, (atoi_int_range _).1, (atoi_int_range _).2, ?_, ?_⟩
  · rw [hev]
    simp [configEvents, hmode]
  · intro h ch bytes hmem
    rw [hev] at hmem
    simp only [List.mem_append, List.mem_cons, List.mem_singleton, List.not_mem_nil,
      or_false] at hmem
    rcases hmem with hmem | hmem | hmem | hmem
    · have := lookupEvents_isLookup env _ hmem
      simp [Event.isLookup] at this
    · simp at hmem
    · simp only [configEvents, List.mem_append] at hmem
      rw [if_neg hmode0] at hmem
      rcases hmem with (hmem | hmem) | hmem
      · simp at hmem
        exact hmem.2.2
      · split_ifs at hmem <;> simp at hmem
      · simp at hmem
    · simp at hmem

/-- C8 amended, at mode `"2"`, time 5, level 12. -/
theorem C8_byte_layout_witness :
    envReverb.midi.reverbMode ≠ "auto".toList
    ∧ MidiHandler_mt32.new.Open envReverb World.empty =
        some (true, { chan := some 1, synth := some 0, open_ := true, noise := false },
          (OpenFits envReverb MidiHandler_mt32.new World.empty).2.2)
    ∧ (reverbsysex envReverb.midi)[3]? = some (toBit8u (atoi envReverb.midi.reverbMode))
    ∧ (reverbsysex envReverb.midi)[4]? = some (toBit8u envReverb.midi.reverbTime)
    ∧ (reverbsysex envReverb.midi)[5]? = some (toBit8u envReverb.midi.reverbLevel)
    ∧ Event.writeSysex 0 16 [0x10, 0x00, 0x01, 0x02, 5, 12]
        ∈ eventsSince World.empty (OpenFits envReverb MidiHandler_mt32.new World.empty).2.2 :=
  have hopen : MidiHandler_mt32.new.Open envReverb World.empty =
      some (true, { chan := some 1, synth := some 0, open_ := true, noise := false },
        (OpenFits envReverb MidiHandler_mt32.new World.empty).2.2) := by decide
  have hthm := C8_byte_layout envReverb MidiHandler_mt32.new _ World.empty _ (by decide) hopen
  ⟨by decide, hopen, hthm.2.2.2.2.1, hthm.2.2.2.2.2.1, hthm.2.2.2.2.2.2.1,
    hthm.2.2.2.2.2.2.2.2.2.1⟩

end Munt
